import Mathlib

/-!
Verification of the `shacl-rust` SHACL validator core against its
natural-language specification.

The development shallowly embeds the relevant Rust source functions as
executable Lean definitions:

* RDF data model (`Term`, `Node`, `Triple`, `Graph`) and the graph index
  functions from the oxigraph access layer used by the core
  (`objects_for_subject_predicate`, `subjects_for_predicate_object`, ...).
* The report model from `src/validation/report.rs`.
* RDF-list decoding and comparison utilities from `src/utils.rs`.
* The path resolver from `src/core/path.rs`.
* Constraint validators (`class`, `min_count`, `max_count`,
  `min_exclusive`, `sparql`) from `src/validation/constraints/`.
* The `sh:closed` check and constraint dispatch from `src/validation/mod.rs`.
* The shape compiler from `src/parser/mod.rs` and `src/parser/path.rs`.

Rust `HashSet`s are modelled as lists with membership-guarded insertion;
graphs are finite triple lists (oxigraph graphs are finite triple sets whose
iteration order is unspecified — the list order stands in for one such
iteration order).  Unbounded `loop`/worklist iterations are modelled with an
explicit fuel parameter; where the Rust loop terminates, a graph-size bound
on the fuel reproduces its result, and non-termination of the Rust loop
shows up as the fuel-indexed function returning `none` for every fuel.
-/

namespace ShaclRust

/-- An RDF term: IRI, blank node, or literal (lexical form, datatype IRI,
optional language tag).  Mirrors `oxigraph::model::Term` as consumed by the
core. -/
inductive Term where
  | namedNode (iri : String)
  | blankNode (id : String)
  | literal (value : String) (datatype : String) (lang : Option String)
deriving DecidableEq, Repr

/-- A subject position term: IRI or blank node
(`oxigraph::model::NamedOrBlankNode`). -/
inductive Node where
  | named (iri : String)
  | blank (id : String)
deriving DecidableEq, Repr

/-- Widening of a subject node into a term (`Term::from` in oxigraph). -/
def Node.toTerm : Node → Term
  | .named i => .namedNode i
  | .blank b => .blankNode b

/-- `utils::term_to_named_or_blank`: view a term as a subject node,
filtering out literals. -/
def termToNamedOrBlank : Term → Option Node
  | .namedNode i => some (.named i)
  | .blankNode b => some (.blank b)
  | .literal _ _ _ => none

/-- One RDF triple; predicates are IRIs. -/
structure Triple where
  subj : Node
  pred : String
  obj : Term
deriving DecidableEq, Repr

/-- A graph is a finite collection of triples (modelling
`oxigraph::model::Graph`; the list order stands in for one iteration order
of the underlying set). -/
abbrev Graph := List Triple

namespace Graph

/-- `Graph::objects_for_subject_predicate`. -/
def objectsForSubjectPredicate (g : Graph) (s : Node) (p : String) : List Term :=
  (g.filter fun t => decide (t.subj = s ∧ t.pred = p)).map Triple.obj

/-- `Graph::object_for_subject_predicate` (first match). -/
def objectForSubjectPredicate (g : Graph) (s : Node) (p : String) : Option Term :=
  (g.objectsForSubjectPredicate s p).head?

/-- `Graph::subjects_for_predicate_object`. -/
def subjectsForPredicateObject (g : Graph) (p : String) (o : Term) : List Node :=
  (g.filter fun t => decide (t.pred = p ∧ t.obj = o)).map Triple.subj

/-- `Graph::triples_for_subject`. -/
def triplesForSubject (g : Graph) (s : Node) : List Triple :=
  g.filter fun t => decide (t.subj = s)

/-- `Graph::triples_for_predicate`. -/
def triplesForPredicate (g : Graph) (p : String) : List Triple :=
  g.filter fun t => decide (t.pred = p)

end Graph

/-! Vocabulary constants (`src/vocab/sh.rs` and oxigraph's `rdf`/`rdfs`
vocabularies) — only the terms the embedded functions read or write. -/

def rdfType : String := "http://www.w3.org/1999/02/22-rdf-syntax-ns#type"

def rdfFirst : String := "http://www.w3.org/1999/02/22-rdf-syntax-ns#first"

def rdfRest : String := "http://www.w3.org/1999/02/22-rdf-syntax-ns#rest"

def rdfNil : String := "http://www.w3.org/1999/02/22-rdf-syntax-ns#nil"

def rdfsSubClassOf : String := "http://www.w3.org/2000/01/rdf-schema#subClassOf"

def shNs : String := "http://www.w3.org/ns/shacl#"

def shViolation : String := shNs ++ "Violation"

def shClassConstraintComponent : String := shNs ++ "ClassConstraintComponent"

def shMinCountConstraintComponent : String := shNs ++ "MinCountConstraintComponent"

def shMaxCountConstraintComponent : String := shNs ++ "MaxCountConstraintComponent"

def shMinExclusiveConstraintComponent : String := shNs ++ "MinExclusiveConstraintComponent"

def shClosedConstraintComponent : String := shNs ++ "ClosedConstraintComponent"

def shSparqlConstraintComponent : String := shNs ++ "SPARQLConstraintComponent"

/-! ## Path data model (`src/core/path.rs`) -/

/-- `core::path::PathElement`. -/
inductive PathElement where
  | iri (p : String)
  | inverse (p : String)
  | zeroOrMore (e : PathElement)
  | oneOrMore (e : PathElement)
  | zeroOrOne (e : PathElement)
  | alternative (es : List PathElement)

/-- `core::path::Path`: a sequence of path elements (the optional blank-node
source recorded by the parser is kept for faithfulness). -/
structure Path where
  source : Option Node := none
  elements : List PathElement := []

/-! ## Report model (`src/validation/report.rs`) -/

/-- `report::ValidationResult`.  The recursively nested `details` results
(populated only by the logical-combinator validators, which none of the
claims inspect) are elided. -/
structure ValidationResult where
  focusNode : Term
  sourceShape : Node
  sourceShapeName : Option String := none
  sourceConstraintComponent : Option String := none
  constraintDetail : Option String := none
  severity : String
  resultPath : Option Path := none
  value : Option Term := none
  messages : List String := []
  trace : List String := []

/-- `report::ValidationReport`. -/
structure ValidationReport where
  conforms : Bool
  results : List ValidationResult

namespace ValidationReport

/-- `ValidationReport::new`. -/
def new : ValidationReport := { conforms := true, results := [] }

/-- `ValidationReport::add_result`. -/
def addResult (rep : ValidationReport) (r : ValidationResult) : ValidationReport :=
  { conforms := false, results := rep.results ++ [r] }

/-- `ValidationReport::extend_results`. -/
def extendResults (rep : ValidationReport) (rs : List ValidationResult) : ValidationReport :=
  if rs.isEmpty then rep
  else { conforms := false, results := rep.results ++ rs }

/-- `ValidationReport::merge`. -/
def merge (rep other : ValidationReport) : ValidationReport :=
  { conforms := if !other.conforms then false else rep.conforms,
    results := rep.results ++ other.results }

/-- The in-place push the validation engine performs on a report
(`Shape::validate_constraint`, src/validation/mod.rs lines 694-700, and
`add_violation_from_builder`): set `conforms` to `false` and append one
result. -/
def enginePush (rep : ValidationReport) (r : ValidationResult) : ValidationReport :=
  { conforms := false, results := rep.results ++ [r] }

/-- Reports reachable through the report operations and through the
validation engine's report mutations: `new`, `add_result`,
`extend_results`, `merge` of two reachable reports, and the engine's
push-violation mutation. -/
inductive Reachable : ValidationReport → Prop where
  | new : Reachable ValidationReport.new
  | addResult {rep : ValidationReport} (r : ValidationResult) :
      Reachable rep → Reachable (rep.addResult r)
  | extendResults {rep : ValidationReport} (rs : List ValidationResult) :
      Reachable rep → Reachable (rep.extendResults rs)
  | merge {rep other : ValidationReport} :
      Reachable rep → Reachable other → Reachable (rep.merge other)
  | enginePush {rep : ValidationReport} (r : ValidationResult) :
      Reachable rep → Reachable (rep.enginePush r)

end ValidationReport

/-- The merge operation preserves the conformance invariant. -/
theorem mergePreservesInvariant {r1 r2 : ValidationReport}
    (ih1 : r1.conforms = true ↔ r1.results = [])
    (ih2 : r2.conforms = true ↔ r2.results = []) :
    ((r1.merge r2).conforms = true ↔ (r1.merge r2).results = []) := by
  unfold ValidationReport.merge
  cases h2 : r2.conforms <;> cases h1 : r1.conforms <;>
    simp_all [List.append_eq_nil]

/-- C1: for every report reachable through the report operations and the
validation engine's mutations, `conforms` is `true` exactly when the
results list is empty; and adding any result flips `conforms` to `false`. -/
theorem validationReport_conforms_iff_results_empty
    (rep : ValidationReport) (h : rep.Reachable) :
    (rep.conforms = true ↔ rep.results = []) ∧
      ∀ r : ValidationResult, (rep.addResult r).conforms = false := by
  refine ⟨?_, fun r => rfl⟩
  induction h with
  | new => simp [ValidationReport.new]
  | addResult r _ _ => simp [ValidationReport.addResult]
  | extendResults rs _ ih =>
      by_cases hrs : rs.isEmpty
      · simpa [ValidationReport.extendResults, hrs] using ih
      · have hrs' : rs ≠ [] := by simpa [List.isEmpty_iff] using hrs
        simp [ValidationReport.extendResults, hrs, hrs']
  | merge _ _ ih1 ih2 => exact mergePreservesInvariant ih1 ih2
  | enginePush r _ _ => simp [ValidationReport.enginePush]

/-- Witness for C1 at concrete reports: the empty report conforms, and a
report with one result added does not conform and has a nonempty results
list. -/
theorem validationReport_conforms_iff_results_empty_witness :
    (ValidationReport.new.conforms = true ↔ ValidationReport.new.results = []) ∧
      ((ValidationReport.new.addResult
          { focusNode := .namedNode "urn:f", sourceShape := .named "urn:s",
            severity := shViolation }).conforms = true ↔
        (ValidationReport.new.addResult
          { focusNode := .namedNode "urn:f", sourceShape := .named "urn:s",
            severity := shViolation }).results = []) := by
  exact ⟨(validationReport_conforms_iff_results_empty ValidationReport.new
      ValidationReport.Reachable.new).1,
    (validationReport_conforms_iff_results_empty _
      (ValidationReport.Reachable.addResult _ ValidationReport.Reachable.new)).1⟩

/-! ## Targets, constraints and shapes (`src/core/target.rs`,
`src/core/constraints.rs`, `src/core/shape.rs`) -/

/-- `core::target::Target`. -/
inductive Target where
  | node (t : Term)
  | classTarget (c : Node)
  | subjectsOf (p : String)
  | objectsOf (p : String)
  | advanced (n : Node)
deriving DecidableEq, Repr

/-- Embedded `core::constraints::Constraint` variants.  Only the variants
the claims exercise are embedded; the remaining (including the recursive
logical combinators) are outside every claim's code paths. -/
inductive Constraint where
  | classConstraint (cls : String)
  | minCount (n : Int)
  | maxCount (n : Int)
  | minExclusive (t : Term)
  | minInclusive (t : Term)
  | maxExclusive (t : Term)
  | maxInclusive (t : Term)

/-- `core::shape::ClosedConstraint`. -/
structure ClosedConstraint where
  ignoredProperties : List String

/-- `core::shape::Shape` — one structure for node and property shapes;
recursive through `propertyShapes`. -/
inductive Shape where
  | mk
      (node : Node)
      (name : Option String)
      (description : Option String)
      (path : Option Path)
      (targets : List Target)
      (deactivated : Bool)
      (message : List String)
      (severity : String)
      (constraints : List Constraint)
      (closed : Option ClosedConstraint)
      (propertyShapes : List Shape)
      (parent : Option Node)

namespace Shape

def node : Shape → Node
  | .mk n _ _ _ _ _ _ _ _ _ _ _ => n

def name : Shape → Option String
  | .mk _ n _ _ _ _ _ _ _ _ _ _ => n

def path : Shape → Option Path
  | .mk _ _ _ p _ _ _ _ _ _ _ _ => p

def targets : Shape → List Target
  | .mk _ _ _ _ t _ _ _ _ _ _ _ => t

def deactivated : Shape → Bool
  | .mk _ _ _ _ _ d _ _ _ _ _ _ => d

def message : Shape → List String
  | .mk _ _ _ _ _ _ m _ _ _ _ _ => m

def severity : Shape → String
  | .mk _ _ _ _ _ _ _ s _ _ _ _ => s

def constraints : Shape → List Constraint
  | .mk _ _ _ _ _ _ _ _ c _ _ _ => c

def closed : Shape → Option ClosedConstraint
  | .mk _ _ _ _ _ _ _ _ _ c _ _ => c

def propertyShapes : Shape → List Shape
  | .mk _ _ _ _ _ _ _ _ _ _ ps _ => ps

end Shape

/-- `ViolationBuilder` (src/validation/mod.rs): the per-violation fields a
constraint validator assembles before the owning shape completes them. -/
structure ViolationBuilder where
  focusNode : Term
  value : Option Term := none
  constraintMessages : List String := []
  constraintComponent : Option String := none
  constraintDetail : Option String := none
  trace : List String := []

/-- The `retain` pass of `Shape::build_validation_result`: keep the first
occurrence of each message (Rust `HashSet::insert` guard). -/
def retainFirstOccurrences (seen : List String) : List String → List String
  | [] => []
  | m :: rest =>
      if m ∈ seen then retainFirstOccurrences seen rest
      else m :: retainFirstOccurrences (m :: seen) rest

/-- `Shape::build_validation_result`: merge constraint messages with the
shape's `sh:message` set (first occurrences kept) and stamp shape
metadata. -/
def Shape.buildValidationResult (shape : Shape) (b : ViolationBuilder) :
    ValidationResult :=
  { focusNode := b.focusNode
    sourceShape := shape.node
    sourceShapeName := shape.name
    sourceConstraintComponent := b.constraintComponent
    constraintDetail := b.constraintDetail
    severity := shape.severity
    resultPath := shape.path
    value := b.value
    messages := retainFirstOccurrences [] (b.constraintMessages ++ shape.message)
    trace := b.trace }

/-! ## RDF list decoding (`utils::parse_rdf_list`) -/

/-- `utils::parse_rdf_list`, with the iterations of the Rust `loop` made
explicit as a fuel parameter; `none` means the fuel was exhausted before
the loop returned.  For every input on which the Rust loop terminates some
fuel yields `some`; an input on which every fuel yields `none` is an input
on which the Rust loop never terminates. -/
def parseRdfListFuel (g : Graph) : Nat → Node → List Term → Option (List Term)
  | 0, _, _ => none
  | fuel + 1, current, acc =>
      if current = Node.named rdfNil then some acc
      else
        let acc2 := match g.objectForSubjectPredicate current rdfFirst with
          | some first => acc ++ [first]
          | none => acc
        match g.objectForSubjectPredicate current rdfRest with
        | some (Term.namedNode nn) => parseRdfListFuel g fuel (Node.named nn) acc2
        | some (Term.blankNode bn) => parseRdfListFuel g fuel (Node.blank bn) acc2
        | some (Term.literal _ _ _) => some acc2
        | none => some acc2

/-- A graph whose single triple makes `_:b`'s `rdf:rest` link point back at
`_:b` itself: a one-node `rdf:rest` cycle. -/
def c3CycleGraph : Graph :=
  [{ subj := .blank "b", pred := rdfRest, obj := .blankNode "b" }]

/-- A well-formed two-member RDF list `(a b)` rooted at `_:l1`. -/
def c3ProperListGraph : Graph :=
  [{ subj := .blank "l1", pred := rdfFirst, obj := .namedNode "urn:a" },
   { subj := .blank "l1", pred := rdfRest, obj := .blankNode "l2" },
   { subj := .blank "l2", pred := rdfFirst, obj := .namedNode "urn:b" },
   { subj := .blank "l2", pred := rdfRest, obj := .namedNode rdfNil }]

/-- C3: `parse_rdf_list` does NOT terminate on every graph — on the
one-node `rdf:rest` cycle the loop never returns (every fuel is
exhausted), because the source has no cycle detection; on a well-formed
list it returns the member terms in order. -/
theorem parse_rdf_list_diverges_on_cycle :
    (∀ (fuel : Nat) (acc : List Term),
        parseRdfListFuel c3CycleGraph fuel (Node.blank "b") acc = none) ∧
      parseRdfListFuel c3ProperListGraph 3 (Node.blank "l1") [] =
        some [Term.namedNode "urn:a", Term.namedNode "urn:b"] := by
  refine ⟨?_, by rfl⟩
  intro fuel
  induction fuel with
  | zero => intro _; rfl
  | succ n ih =>
      intro acc
      have hstep :
          parseRdfListFuel c3CycleGraph (n + 1) (Node.blank "b") acc =
            parseRdfListFuel c3CycleGraph n (Node.blank "b") acc := rfl
      rw [hstep]
      exact ih acc

/-! ## MinCount / MaxCount (`src/validation/constraints/min_count.rs`,
`max_count.rs`) -/

/-- The Rust cast `value_nodes.len() as i32`: truncate to the low 32 bits
and reinterpret in two's complement (so lengths in `[2^31, 2^32)` come
out negative). -/
def usizeToI32 (len : Nat) : Int :=
  let m : Nat := len % 2 ^ 32
  if m < 2 ^ 31 then (m : Int) else (m : Int) - 2 ^ 32

/-- `MinCountConstraint::validate`: one result when the number of value
nodes — wrapped through the `as i32` cast — is below the bound. -/
def MinCountConstraint.validate (n : Int) (focus : Term)
    (valueNodes : List Term) (shape : Shape) : List ValidationResult :=
  let count : Int := usizeToI32 valueNodes.length
  if count < n then
    [shape.buildValidationResult
      { focusNode := focus
        constraintMessages := [s!"Property has {count} values (min: {n})"]
        constraintComponent := some shMinCountConstraintComponent
        constraintDetail := some s!"sh:minCount {n}" }]
  else []

/-- `MaxCountConstraint::validate`: one result when the wrapped number of
value nodes exceeds the bound. -/
def MaxCountConstraint.validate (n : Int) (focus : Term)
    (valueNodes : List Term) (shape : Shape) : List ValidationResult :=
  let count : Int := usizeToI32 valueNodes.length
  if count > n then
    [shape.buildValidationResult
      { focusNode := focus
        constraintMessages := [s!"Property has {count} values (max: {n})"]
        constraintComponent := some shMaxCountConstraintComponent
        constraintDetail := some s!"sh:maxCount {n}" }]
  else []

/-- Below 2^31 the `as i32` cast is the identity. -/
theorem usizeToI32_small {len : Nat} (h : len < 2 ^ 31) :
    usizeToI32 len = (len : Int) := by
  unfold usizeToI32
  rw [Nat.mod_eq_of_lt (lt_trans h (by norm_num))]
  rw [if_pos h]

/-- C9 (amended): for every value-node list shorter than `2^31` — every
list an actual run can materialize, the bound below which the `as i32`
cast of the length is the identity — MinCount and MaxCount fail exactly
when the number of value nodes is outside the bound, emit at most a
single result per focus node (exactly one in the failing case, none
otherwise), and `MinCount 0` never fires; at length `2^31` the wrapped
count turns negative and `MinCount 0` does fire (see the
counterexample). -/
theorem minCount_maxCount_fail_iff_out_of_bounds
    (nMin nMax : Int) (focus : Term) (valueNodes : List Term) (shape : Shape)
    (hlen : valueNodes.length < 2 ^ 31) :
    (MinCountConstraint.validate nMin focus valueNodes shape = [] ↔
        nMin ≤ (valueNodes.length : Int)) ∧
      (MinCountConstraint.validate nMin focus valueNodes shape).length ≤ 1 ∧
      (MaxCountConstraint.validate nMax focus valueNodes shape = [] ↔
        (valueNodes.length : Int) ≤ nMax) ∧
      (MaxCountConstraint.validate nMax focus valueNodes shape).length ≤ 1 ∧
      MinCountConstraint.validate 0 focus valueNodes shape = [] := by
  unfold MinCountConstraint.validate MaxCountConstraint.validate
  rw [usizeToI32_small hlen]
  refine ⟨?_, ?_, ?_, ?_, ?_⟩ <;> simp only []
  · split <;> rename_i h <;> simp <;> omega
  · split <;> simp
  · split <;> rename_i h <;> simp <;> omega
  · split <;> simp
  · split <;> rename_i h <;> [omega; simp]

/-- A minimal concrete shape for the C9 witness and counterexample. -/
def c9WitnessShape : Shape :=
  .mk (.named "urn:shape9") none none none [] false [] shViolation [] none [] none

/-- Witness for C9 at a one-element value-node list. -/
theorem minCount_maxCount_fail_iff_out_of_bounds_witness :
    (MinCountConstraint.validate 2 (.namedNode "urn:f")
        [.namedNode "urn:v"] c9WitnessShape = [] ↔
      (2 : Int) ≤ (([Term.namedNode "urn:v"] : List Term).length : Int)) ∧
      MinCountConstraint.validate 0 (.namedNode "urn:f")
        [.namedNode "urn:v"] c9WitnessShape = [] := by
  have h := minCount_maxCount_fail_iff_out_of_bounds 2 1 (.namedNode "urn:f")
    [.namedNode "urn:v"] c9WitnessShape (by norm_num)
  exact ⟨h.1, h.2.2.2.2⟩

/-- C9 counterexample: at a value-node list of length `2^31` the wrapped
count is `-2^31 < 0`, so `MinCount 0` fires — refuting the claim's
"MinCount 0 never fires for any value-node list" on the program's
wrapping cast. -/
theorem minCountZero_fires_at_two_pow_31 :
    MinCountConstraint.validate 0 (.namedNode "urn:f")
      (List.replicate (2 ^ 31) (.namedNode "urn:v")) c9WitnessShape ≠ [] := by
  unfold MinCountConstraint.validate
  have hlen : (List.replicate (2 ^ 31) (Term.namedNode "urn:v")).length =
      2 ^ 31 := List.length_replicate _ _
  rw [hlen]
  have hcount : usizeToI32 (2 ^ 31) = -(2 ^ 31) := by
    unfold usizeToI32
    norm_num
  rw [hcount]
  have hneg : (-(2 ^ 31) : Int) < 0 := by norm_num
  simp [hneg]

/-! ## Value comparison (`utils::compare_values`) and the value-range
constraint validators (`min_exclusive.rs`, `min_inclusive.rs`,
`max_exclusive.rs`, `max_inclusive.rs`) -/

def shMinInclusiveConstraintComponent : String := shNs ++ "MinInclusiveConstraintComponent"

def shMaxExclusiveConstraintComponent : String := shNs ++ "MaxExclusiveConstraintComponent"

def shMaxInclusiveConstraintComponent : String := shNs ++ "MaxInclusiveConstraintComponent"

def Term.isLiteral : Term → Bool
  | .literal _ _ _ => true
  | _ => false

/-- Base-10 value of a digit string. -/
def digitsToNat (ds : List Char) : Nat :=
  ds.foldl (fun acc c => acc * 10 + (c.toNat - 48)) 0

/-- `utils::compare_values`: when both operands are literals, compare
numerically if both lexical forms parse as numbers, lexicographically on
the lexical forms if neither does, and fail (`false`) on mixed pairs; any
non-literal operand also fails.

The numeric parse (`str::parse::<f64>`) and the `<` on `f64` are Rust
standard-library operations outside this repository; they enter the
embedding as the abstract `parseF64` and `fltLt` parameters, so every
branch of the source's match is mirrored while the theorems below hold
for the actual float parsing (exponent, `inf`/`NaN` forms included) and
the actual `f64` comparison (the only property used below is that
`f64`'s `<` is asymmetric, which holds even in the presence of NaN).
String comparison (`str::cmp`) is byte-lexicographic, which on UTF-8
coincides with the code-point order modelled here. -/
def compareValues {F : Type} (parseF64 : String → Option F)
    (fltLt : F → F → Bool) (a b : Term) (pred : Int → Bool) : Bool :=
  match a, b with
  | .literal va _ _, .literal vb _ _ =>
      match parseF64 va, parseF64 vb with
      | some na, some nb =>
          if fltLt na nb then pred (-1)
          else if fltLt nb na then pred 1
          else pred 0
      | none, none =>
          if va < vb then pred (-1) else if vb < va then pred 1 else pred 0
      | _, _ => false
  | _, _ => false

/-- `MinExclusiveConstraint::validate`: one violation per value node whose
comparison against the bound does not come out strictly greater. -/
def MinExclusiveConstraint.validate {F : Type} (parseF64 : String → Option F)
    (fltLt : F → F → Bool) (bound : Term) (focus : Term)
    (valueNodes : List Term) (shape : Shape) : List ValidationResult :=
  valueNodes.filterMap fun v =>
    if compareValues parseF64 fltLt v bound (fun cmp => decide (0 < cmp)) then
      none
    else some (shape.buildValidationResult
      { focusNode := focus, value := some v
        constraintMessages := ["Value is not greater than the minimum"]
        constraintComponent := some shMinExclusiveConstraintComponent })

/-- `MinInclusiveConstraint::validate`. -/
def MinInclusiveConstraint.validate {F : Type} (parseF64 : String → Option F)
    (fltLt : F → F → Bool) (bound : Term) (focus : Term)
    (valueNodes : List Term) (shape : Shape) : List ValidationResult :=
  valueNodes.filterMap fun v =>
    if compareValues parseF64 fltLt v bound (fun cmp => decide (0 ≤ cmp)) then
      none
    else some (shape.buildValidationResult
      { focusNode := focus, value := some v
        constraintMessages := ["Value is not greater than or equal to the minimum"]
        constraintComponent := some shMinInclusiveConstraintComponent })

/-- `MaxExclusiveConstraint::validate`. -/
def MaxExclusiveConstraint.validate {F : Type} (parseF64 : String → Option F)
    (fltLt : F → F → Bool) (bound : Term) (focus : Term)
    (valueNodes : List Term) (shape : Shape) : List ValidationResult :=
  valueNodes.filterMap fun v =>
    if compareValues parseF64 fltLt v bound (fun cmp => decide (cmp < 0)) then
      none
    else some (shape.buildValidationResult
      { focusNode := focus, value := some v
        constraintMessages := ["Value is not less than the maximum"]
        constraintComponent := some shMaxExclusiveConstraintComponent })

/-- `MaxInclusiveConstraint::validate`. -/
def MaxInclusiveConstraint.validate {F : Type} (parseF64 : String → Option F)
    (fltLt : F → F → Bool) (bound : Term) (focus : Term)
    (valueNodes : List Term) (shape : Shape) : List ValidationResult :=
  valueNodes.filterMap fun v =>
    if compareValues parseF64 fltLt v bound (fun cmp => decide (cmp ≤ 0)) then
      none
    else some (shape.buildValidationResult
      { focusNode := focus, value := some v
        constraintMessages := ["Value is not less than or equal to the maximum"]
        constraintComponent := some shMaxInclusiveConstraintComponent })

/-- Numeric branch of `compare_values`. -/
theorem compareValues_numeric {F : Type} (parseF64 : String → Option F)
    (fltLt : F → F → Bool) (va vb dta dtb : String)
    (la lb : Option String) {qa qb : F} (pred : Int → Bool)
    (ha : parseF64 va = some qa) (hb : parseF64 vb = some qb) :
    compareValues parseF64 fltLt (.literal va dta la) (.literal vb dtb lb) pred =
      if fltLt qa qb then pred (-1)
      else if fltLt qb qa then pred 1
      else pred 0 := by
  simp [compareValues, ha, hb]

/-- String branch of `compare_values`. -/
theorem compareValues_string {F : Type} (parseF64 : String → Option F)
    (fltLt : F → F → Bool) (va vb dta dtb : String)
    (la lb : Option String) (pred : Int → Bool)
    (ha : parseF64 va = none) (hb : parseF64 vb = none) :
    compareValues parseF64 fltLt (.literal va dta la) (.literal vb dtb lb) pred =
      if va < vb then pred (-1) else if vb < va then pred 1 else pred 0 := by
  simp [compareValues, ha, hb]

/-- Mixed numeric/non-numeric pairs fail `compare_values`. -/
theorem compareValues_mixed {F : Type} (parseF64 : String → Option F)
    (fltLt : F → F → Bool) (va vb dta dtb : String)
    (la lb : Option String) (pred : Int → Bool)
    (h : (parseF64 va).isSome ≠ (parseF64 vb).isSome) :
    compareValues parseF64 fltLt (.literal va dta la) (.literal vb dtb lb) pred =
      false := by
  unfold compareValues
  cases hva : parseF64 va <;> cases hvb : parseF64 vb <;> simp_all

/-- Non-literal operands fail `compare_values`. -/
theorem compareValues_nonliteral {F : Type} (parseF64 : String → Option F)
    (fltLt : F → F → Bool) (a b : Term) (pred : Int → Bool)
    (h : a.isLiteral = false ∨ b.isLiteral = false) :
    compareValues parseF64 fltLt a b pred = false := by
  cases a <;> cases b <;> simp_all [Term.isLiteral, compareValues]

/-- C8: for the value-range constraints, the comparison is numeric exactly
when both operands parse as numbers, lexicographic on the string forms
when neither does, and a mixed pair or a non-literal operand fails the
comparison — yielding a violation from each of the four validators.
Stated end-to-end on a single value node against the bound, for every
numeric parse function and float comparison (the standard-library
`str::parse::<f64>` and `f64`'s `<` among them — asymmetry of the
comparison, `hasymm`, is the one property used, and it holds for `f64`'s
`<` even on NaN). -/
theorem valueRange_comparison_discipline {F : Type}
    (parseF64 : String → Option F) (fltLt : F → F → Bool)
    (hasymm : ∀ x y : F, fltLt x y = true → fltLt y x = false)
    (vv vc dtv dtc : String) (lv lc : Option String)
    (focus : Term) (shape : Shape) :
    (∀ qv qc : F, parseF64 vv = some qv → parseF64 vc = some qc →
      ((MinExclusiveConstraint.validate parseF64 fltLt (.literal vc dtc lc)
          focus [.literal vv dtv lv] shape = [] ↔ fltLt qc qv = true) ∧
        (MinInclusiveConstraint.validate parseF64 fltLt (.literal vc dtc lc)
          focus [.literal vv dtv lv] shape = [] ↔ fltLt qv qc = false) ∧
        (MaxExclusiveConstraint.validate parseF64 fltLt (.literal vc dtc lc)
          focus [.literal vv dtv lv] shape = [] ↔ fltLt qv qc = true) ∧
        (MaxInclusiveConstraint.validate parseF64 fltLt (.literal vc dtc lc)
          focus [.literal vv dtv lv] shape = [] ↔ fltLt qc qv = false))) ∧
      (parseF64 vv = none → parseF64 vc = none →
        ((MinExclusiveConstraint.validate parseF64 fltLt (.literal vc dtc lc)
            focus [.literal vv dtv lv] shape = [] ↔ vc < vv) ∧
          (MinInclusiveConstraint.validate parseF64 fltLt (.literal vc dtc lc)
            focus [.literal vv dtv lv] shape = [] ↔ ¬ vv < vc) ∧
          (MaxExclusiveConstraint.validate parseF64 fltLt (.literal vc dtc lc)
            focus [.literal vv dtv lv] shape = [] ↔ vv < vc) ∧
          (MaxInclusiveConstraint.validate parseF64 fltLt (.literal vc dtc lc)
            focus [.literal vv dtv lv] shape = [] ↔ ¬ vc < vv))) ∧
      ((parseF64 vv).isSome ≠ (parseF64 vc).isSome →
        (MinExclusiveConstraint.validate parseF64 fltLt (.literal vc dtc lc)
            focus [.literal vv dtv lv] shape ≠ [] ∧
          MinInclusiveConstraint.validate parseF64 fltLt (.literal vc dtc lc)
            focus [.literal vv dtv lv] shape ≠ [] ∧
          MaxExclusiveConstraint.validate parseF64 fltLt (.literal vc dtc lc)
            focus [.literal vv dtv lv] shape ≠ [] ∧
          MaxInclusiveConstraint.validate parseF64 fltLt (.literal vc dtc lc)
            focus [.literal vv dtv lv] shape ≠ [])) ∧
      (∀ v bound : Term, v.isLiteral = false ∨ bound.isLiteral = false →
        (MinExclusiveConstraint.validate parseF64 fltLt bound focus [v]
            shape ≠ [] ∧
          MinInclusiveConstraint.validate parseF64 fltLt bound focus [v]
            shape ≠ [] ∧
          MaxExclusiveConstraint.validate parseF64 fltLt bound focus [v]
            shape ≠ [] ∧
          MaxInclusiveConstraint.validate parseF64 fltLt bound focus [v]
            shape ≠ [])) := by
  refine ⟨?_, ?_, ?_, ?_⟩
  · intro qv qc hv hc
    have hmin := compareValues_numeric parseF64 fltLt vv vc dtv dtc lv lc
      (fun cmp => decide (0 < cmp)) hv hc
    have hmini := compareValues_numeric parseF64 fltLt vv vc dtv dtc lv lc
      (fun cmp => decide (0 ≤ cmp)) hv hc
    have hmax := compareValues_numeric parseF64 fltLt vv vc dtv dtc lv lc
      (fun cmp => decide (cmp < 0)) hv hc
    have hmaxi := compareValues_numeric parseF64 fltLt vv vc dtv dtc lv lc
      (fun cmp => decide (cmp ≤ 0)) hv hc
    by_cases h1 : fltLt qv qc = true
    · have h2 : fltLt qc qv = false := hasymm _ _ h1
      refine ⟨?_, ?_, ?_, ?_⟩ <;>
        simp [MinExclusiveConstraint.validate, MinInclusiveConstraint.validate,
          MaxExclusiveConstraint.validate, MaxInclusiveConstraint.validate,
          hmin, hmini, hmax, hmaxi, h1, h2]
    · have h1' : fltLt qv qc = false := by simpa using h1
      by_cases h2 : fltLt qc qv = true
      · refine ⟨?_, ?_, ?_, ?_⟩ <;>
          simp [MinExclusiveConstraint.validate, MinInclusiveConstraint.validate,
            MaxExclusiveConstraint.validate, MaxInclusiveConstraint.validate,
            hmin, hmini, hmax, hmaxi, h1', h2]
      · have h2' : fltLt qc qv = false := by simpa using h2
        refine ⟨?_, ?_, ?_, ?_⟩ <;>
          simp [MinExclusiveConstraint.validate, MinInclusiveConstraint.validate,
            MaxExclusiveConstraint.validate, MaxInclusiveConstraint.validate,
            hmin, hmini, hmax, hmaxi, h1', h2']
  · intro hv hc
    have hmin := compareValues_string parseF64 fltLt vv vc dtv dtc lv lc
      (fun cmp => decide (0 < cmp)) hv hc
    have hmini := compareValues_string parseF64 fltLt vv vc dtv dtc lv lc
      (fun cmp => decide (0 ≤ cmp)) hv hc
    have hmax := compareValues_string parseF64 fltLt vv vc dtv dtc lv lc
      (fun cmp => decide (cmp < 0)) hv hc
    have hmaxi := compareValues_string parseF64 fltLt vv vc dtv dtc lv lc
      (fun cmp => decide (cmp ≤ 0)) hv hc
    rcases lt_trichotomy vc vv with h | h | h
    · have h2 : ¬ vv < vc := lt_asymm h
      simp [MinExclusiveConstraint.validate, MinInclusiveConstraint.validate,
        MaxExclusiveConstraint.validate, MaxInclusiveConstraint.validate,
        hmin, hmini, hmax, hmaxi, h, h2]
    · subst h
      simp [MinExclusiveConstraint.validate, MinInclusiveConstraint.validate,
        MaxExclusiveConstraint.validate, MaxInclusiveConstraint.validate,
        hmin, hmini, hmax, hmaxi, lt_irrefl]
    · have h2 : ¬ vc < vv := lt_asymm h
      simp [MinExclusiveConstraint.validate, MinInclusiveConstraint.validate,
        MaxExclusiveConstraint.validate, MaxInclusiveConstraint.validate,
        hmin, hmini, hmax, hmaxi, h, h2]
  · intro h
    have h1 := compareValues_mixed parseF64 fltLt vv vc dtv dtc lv lc
      (fun cmp => decide (0 < cmp)) h
    have h2 := compareValues_mixed parseF64 fltLt vv vc dtv dtc lv lc
      (fun cmp => decide (0 ≤ cmp)) h
    have h3 := compareValues_mixed parseF64 fltLt vv vc dtv dtc lv lc
      (fun cmp => decide (cmp < 0)) h
    have h4 := compareValues_mixed parseF64 fltLt vv vc dtv dtc lv lc
      (fun cmp => decide (cmp ≤ 0)) h
    simp [MinExclusiveConstraint.validate, MinInclusiveConstraint.validate,
      MaxExclusiveConstraint.validate, MaxInclusiveConstraint.validate,
      h1, h2, h3, h4]
  · intro v bound h
    have h1 := compareValues_nonliteral parseF64 fltLt v bound
      (fun cmp => decide (0 < cmp)) h
    have h2 := compareValues_nonliteral parseF64 fltLt v bound
      (fun cmp => decide (0 ≤ cmp)) h
    have h3 := compareValues_nonliteral parseF64 fltLt v bound
      (fun cmp => decide (cmp < 0)) h
    have h4 := compareValues_nonliteral parseF64 fltLt v bound
      (fun cmp => decide (cmp ≤ 0)) h
    simp [MinExclusiveConstraint.validate, MinInclusiveConstraint.validate,
      MaxExclusiveConstraint.validate, MaxInclusiveConstraint.validate,
      h1, h2, h3, h4]

/-- A minimal concrete shape used by witnesses. -/
def defaultWitnessShape : Shape :=
  .mk (.named "urn:shape") none none none [] false [] shViolation [] none [] none

/-- A concrete numeric parse instantiating the abstract float parse in
the C8 witness. -/
def sampleNumericParse (s : String) : Option Int :=
  if s = "10" then some 10 else if s = "2" then some 2 else none

/-- A concrete asymmetric comparison instantiating the abstract float
comparison in the C8 witness. -/
def intLtBool (x y : Int) : Bool := decide (x < y)

/-- Witness for C8 at concrete literals and a concrete parse/comparison
instance: `"10"` against bound `"2"` compares numerically (10 > 2 passes
MinExclusive), `"abc"` against bound `"abd"` compares lexicographically,
`"abc"` against numeric bound `"2"` is a mixed pair and fails, and an IRI
value fails. -/
theorem valueRange_comparison_discipline_witness :
    (MinExclusiveConstraint.validate sampleNumericParse intLtBool
        (.literal "2" "d" none) (.namedNode "urn:f") [.literal "10" "d" none]
        defaultWitnessShape = [] ↔ intLtBool 2 10 = true) ∧
      (MinExclusiveConstraint.validate sampleNumericParse intLtBool
        (.literal "abd" "d" none) (.namedNode "urn:f") [.literal "abc" "d" none]
        defaultWitnessShape = [] ↔ ("abd" : String) < "abc") ∧
      MinExclusiveConstraint.validate sampleNumericParse intLtBool
        (.literal "2" "d" none) (.namedNode "urn:f") [.literal "abc" "d" none]
        defaultWitnessShape ≠ [] ∧
      MinExclusiveConstraint.validate sampleNumericParse intLtBool
        (.literal "2" "d" none) (.namedNode "urn:f") [.namedNode "urn:v"]
        defaultWitnessShape ≠ [] := by
  have hasymm : ∀ x y : Int, intLtBool x y = true → intLtBool y x = false := by
    intro x y h
    simp only [intLtBool, decide_eq_true_eq] at h
    simpa [intLtBool] using lt_asymm h
  refine ⟨?_, ?_, ?_, ?_⟩
  · exact ((valueRange_comparison_discipline sampleNumericParse intLtBool hasymm
      "10" "2" "d" "d" none none (.namedNode "urn:f") defaultWitnessShape).1
      10 2 (by decide) (by decide)).1
  · exact ((valueRange_comparison_discipline sampleNumericParse intLtBool hasymm
      "abc" "abd" "d" "d" none none (.namedNode "urn:f") defaultWitnessShape).2.1
      (by decide) (by decide)).1
  · exact ((valueRange_comparison_discipline sampleNumericParse intLtBool hasymm
      "abc" "2" "d" "d" none none (.namedNode "urn:f") defaultWitnessShape).2.2.1
      (by decide)).1
  · exact ((valueRange_comparison_discipline sampleNumericParse intLtBool hasymm
      "x" "x" "d" "d" none none (.namedNode "urn:f") defaultWitnessShape).2.2.2
      (.namedNode "urn:v") (.literal "2" "d" none) (Or.inl rfl)).1

/-! ## Path evaluation (`src/core/path.rs`, `Path::resolve_element` and
`Path::resolve_path_for_given_node`) -/

/-- The final deduplication of `resolve_element`
(`results.into_iter().filter(|r| unique_results.insert(*r))`): keep first
occurrences. -/
def dedupKeepFirst (seen : List Term) : List Term → List Term
  | [] => []
  | t :: rest =>
      if t ∈ seen then dedupKeepFirst seen rest
      else t :: dedupKeepFirst (t :: seen) rest

/-- The shared worklist loop of the `ZeroOrMore`/`OneOrMore` branches of
`resolve_element` (`while let Some(current) = to_visit.pop()`), iteration
count made explicit as fuel.  `step` is the recursive `resolve_element`
call on the inner element; the accumulator triple is
(visited, results, to_visit-stack).  The Rust loop terminates because each
pop is paid for by a visited-guarded push into the finite term universe of
the graph; a fuel of twice the graph size plus two drains the worklist,
and the lemmas below hold for every fuel. -/
def closureLoop (step : Term → List Term) :
    Nat → List Term → List Term → List Term → List Term
  | 0, _, _, results => results
  | _ + 1, [], _, results => results
  | fuel + 1, current :: stack, visited, results =>
      let s := (step current).foldl
        (fun (acc : List Term × List Term × List Term) next =>
          if next ∈ acc.1 then acc
          else (next :: acc.1, acc.2.1 ++ [next], next :: acc.2.2))
        (visited, results, stack)
      closureLoop step fuel s.2.2 s.1 s.2.1

/-- Fuel bound that drains the worklist of any closure loop over `g`. -/
def closureFuel (g : Graph) : Nat := 2 * g.length + 2

/-- `Path::resolve_element`: resolves one path element over a node set.
Literal inputs are filtered out of subject position; every branch
deduplicates its output preserving first occurrences.  Each per-subject
contribution is independent of previously accumulated results, so the
Rust loop that pushes into one shared `results` vector is modelled by
concatenation over subjects. -/
def resolveElement (g : Graph) (e : PathElement) (nodes : List Term) : List Term :=
  let subjects := nodes.filterMap termToNamedOrBlank
  let results :=
    match e with
    | .iri p => subjects.flatMap fun subject =>
        (g.filter fun t => decide (t.subj = subject ∧ t.pred = p)).map Triple.obj
    | .inverse p => subjects.flatMap fun subject =>
        (g.filter fun t => decide (t.obj = subject.toTerm ∧ t.pred = p)).map
          fun t => t.subj.toTerm
    | .zeroOrMore inner => subjects.flatMap fun subject =>
        subject.toTerm :: closureLoop (fun t => resolveElement g inner [t])
          (closureFuel g) [subject.toTerm] [subject.toTerm] []
    | .oneOrMore inner => subjects.flatMap fun subject =>
        closureLoop (fun t => resolveElement g inner [t])
          (closureFuel g) [subject.toTerm] [subject.toTerm] []
    | .zeroOrOne inner => subjects.flatMap fun subject =>
        subject.toTerm :: resolveElement g inner [subject.toTerm]
    | .alternative alts => subjects.flatMap fun subject =>
        alts.attach.flatMap fun alt => resolveElement g alt.1 [subject.toTerm]
  dedupKeepFirst [] results
termination_by sizeOf e
decreasing_by
  all_goals simp_wf
  all_goals (have h := List.sizeOf_lt_of_mem alt.2; omega)

/-- `Path::resolve_path_for_given_node`: thread the current node set
through the path's elements left to right. -/
def Path.resolvePathForGivenNode (p : Path) (g : Graph) (node : Node) : List Term :=
  p.elements.foldl (fun current e => resolveElement g e current) [node.toTerm]

/-- Membership in the dedup pass. -/
theorem mem_dedupKeepFirst (x : Term) :
    ∀ (l seen : List Term), x ∈ dedupKeepFirst seen l ↔ x ∈ l ∧ x ∉ seen := by
  intro l
  induction l with
  | nil => intro seen; simp [dedupKeepFirst]
  | cons t rest ih =>
      intro seen
      by_cases ht : t ∈ seen
      · rcases eq_or_ne x t with rfl | hx
        · simp [dedupKeepFirst, ht, ih]
        · simp [dedupKeepFirst, ht, ih, hx]
      · rcases eq_or_ne x t with rfl | hx
        · simp [dedupKeepFirst, ht, ih]
        · simp [dedupKeepFirst, ht, ih, hx]

/-- The worklist fold step keeps the invariant "s is visited and not in
results". -/
theorem closureFold_invariant (s : Term) (nexts : List Term) :
    ∀ acc : List Term × List Term × List Term, s ∈ acc.1 → s ∉ acc.2.1 →
      s ∈ (nexts.foldl
          (fun (acc : List Term × List Term × List Term) next =>
            if next ∈ acc.1 then acc
            else (next :: acc.1, acc.2.1 ++ [next], next :: acc.2.2))
          acc).1 ∧
        s ∉ (nexts.foldl
          (fun (acc : List Term × List Term × List Term) next =>
            if next ∈ acc.1 then acc
            else (next :: acc.1, acc.2.1 ++ [next], next :: acc.2.2))
          acc).2.1 := by
  induction nexts with
  | nil => intro acc h1 h2; exact ⟨h1, h2⟩
  | cons next rest ih =>
      intro acc h1 h2
      by_cases hn : next ∈ acc.1
      · simpa [hn] using ih acc h1 h2
      · have hne : s ≠ next := fun h => hn (h ▸ h1)
        have h1' : s ∈ next :: acc.1 := List.mem_cons_of_mem _ h1
        have h2' : s ∉ acc.2.1 ++ [next] := by
          intro hmem
          rcases List.mem_append.mp hmem with h | h
          · exact h2 h
          · exact hne (List.mem_singleton.mp h)
        simpa [hn] using ih (next :: acc.1, acc.2.1 ++ [next], next :: acc.2.2) h1' h2'

/-- A visited element not already in the results never enters the
worklist loop's results. -/
theorem closureLoop_not_mem (step : Term → List Term) (s : Term) :
    ∀ (fuel : Nat) (stack visited results : List Term),
      s ∈ visited → s ∉ results → s ∉ closureLoop step fuel stack visited results := by
  intro fuel
  induction fuel with
  | zero => intro stack visited results _ h2; exact h2
  | succ n ih =>
      intro stack visited results h1 h2
      match stack with
      | [] => exact h2
      | current :: rest =>
          have hinv := closureFold_invariant s (step current) (visited, results, rest) h1 h2
          exact ih _ _ _ hinv.1 hinv.2

/-- `term_to_named_or_blank` inverts `toTerm`. -/
theorem termToNamedOrBlank_toTerm (n : Node) :
    termToNamedOrBlank n.toTerm = some n := by
  cases n <;> rfl

/-- C7: path evaluation of `ZeroOrMore(e)` from an IRI or blank focus node
always contains the focus node itself (reflexivity), and path evaluation
of `OneOrMore(e)` never contains the focus node — in particular whenever
no cycle re-visits the focus, as the claim states. -/
theorem path_zeroOrMore_reflexive_oneOrMore_excludes
    (g : Graph) (e : PathElement) (focus : Node) :
    focus.toTerm ∈
        (Path.mk none [PathElement.zeroOrMore e]).resolvePathForGivenNode g focus ∧
      focus.toTerm ∉
        (Path.mk none [PathElement.oneOrMore e]).resolvePathForGivenNode g focus := by
  constructor
  · show focus.toTerm ∈ resolveElement g (PathElement.zeroOrMore e) [focus.toTerm]
    unfold resolveElement
    rw [mem_dedupKeepFirst]
    refine ⟨?_, List.not_mem_nil _⟩
    simp [termToNamedOrBlank_toTerm]
  · show focus.toTerm ∉ resolveElement g (PathElement.oneOrMore e) [focus.toTerm]
    unfold resolveElement
    rw [mem_dedupKeepFirst]
    intro hmem
    have hm := hmem.1
    simp only [List.filterMap_cons, List.filterMap_nil, termToNamedOrBlank_toTerm,
      List.flatMap_cons, List.flatMap_nil, List.append_nil] at hm
    exact closureLoop_not_mem (fun t => resolveElement g e [t]) focus.toTerm
      (closureFuel g) [focus.toTerm] [focus.toTerm] []
      (List.mem_singleton_self _) (List.not_mem_nil _) hm

/-! ## Closed-shape validation (`utils::extract_direct_predicates` and
`Shape::validate_closed_constraint`) -/

/-- `utils::extract_direct_predicates`: the top-level `Iri` elements of
the path, plus the direct `Iri` members of top-level `Alternative`
elements; `Inverse` and the recursive quantified elements contribute
nothing. -/
def extractDirectPredicates (p : Path) : List String :=
  p.elements.flatMap fun e =>
    match e with
    | .iri iri => [iri]
    | .alternative alts =>
        alts.filterMap fun alt =>
          match alt with
          | .iri iri => some iri
          | _ => none
    | _ => []

/-- The allowed-predicate set assembled by `validate_closed_constraint`:
ignored properties plus the direct predicates of each nested property
shape's path (a Rust `HashSet`, modelled by a list queried through
membership). -/
def Shape.closedAllowedPredicates (shape : Shape) (cc : ClosedConstraint) :
    List String :=
  cc.ignoredProperties ++
    shape.propertyShapes.flatMap fun ps =>
      match ps.path with
      | some path => extractDirectPredicates path
      | none => []

/-- The violation `validate_closed_constraint` emits for one offending
triple (via `add_violation_with_component`). -/
def Shape.closedViolation (shape : Shape) (focus : Term) (t : Triple) :
    ValidationResult :=
  shape.buildValidationResult
    { focusNode := focus, value := some t.obj
      constraintMessages :=
        ["Property " ++ t.pred ++ " is not allowed (closed shape)"]
      constraintComponent := some shClosedConstraintComponent }

/-- `Shape::validate_closed_constraint`: nothing without `sh:closed` or
for a literal focus; otherwise one violation per outgoing triple of the
focus node whose predicate is not allowed. -/
def Shape.validateClosedConstraint (shape : Shape) (g : Graph)
    (focus : Term) (report : ValidationReport) : ValidationReport :=
  match shape.closed with
  | none => report
  | some cc =>
      match termToNamedOrBlank focus with
      | none => report
      | some focusAsNode =>
          let allowedProperties := shape.closedAllowedPredicates cc
          (g.triplesForSubject focusAsNode).foldl
            (fun rep t =>
              if t.pred ∈ allowedProperties then rep
              else rep.enginePush (shape.closedViolation focus t))
            report

/-- Membership in `extract_direct_predicates`. -/
theorem mem_extractDirectPredicates (p : String) (path : Path) :
    p ∈ extractDirectPredicates path ↔
      PathElement.iri p ∈ path.elements ∨
        ∃ alts, PathElement.alternative alts ∈ path.elements ∧
          PathElement.iri p ∈ alts := by
  unfold extractDirectPredicates
  rw [List.mem_flatMap]
  constructor
  · rintro ⟨e, he, hp⟩
    cases e with
    | iri q =>
        left
        have : p = q := by simpa using hp
        exact this ▸ he
    | alternative alts =>
        right
        refine ⟨alts, he, ?_⟩
        rcases List.mem_filterMap.mp hp with ⟨alt, halt, heq⟩
        cases alt <;> simp_all
    | inverse q => simp at hp
    | zeroOrMore inner => simp at hp
    | oneOrMore inner => simp at hp
    | zeroOrOne inner => simp at hp
  · rintro (he | ⟨alts, he, hp⟩)
    · exact ⟨PathElement.iri p, he, by simp⟩
    · exact ⟨PathElement.alternative alts, he,
        List.mem_filterMap.mpr ⟨PathElement.iri p, hp, rfl⟩⟩

/-- The closed-check loop appends exactly one violation per offending
triple, in triple order. -/
theorem foldl_closed_results (P : Triple → Prop) [DecidablePred P]
    (v : Triple → ValidationResult) :
    ∀ (l : List Triple) (rep : ValidationReport),
      (l.foldl (fun rep t =>
          if P t then rep else rep.enginePush (v t)) rep).results =
        rep.results ++ (l.filter (fun t => !decide (P t))).map v := by
  intro l
  induction l with
  | nil => intro rep; simp
  | cons t rest ih =>
      intro rep
      by_cases hc : P t
      · simp [hc, ih]
      · have hstep : (if P t then rep else rep.enginePush (v t)) =
            rep.enginePush (v t) := if_neg hc
        rw [List.foldl_cons, hstep, ih]
        simp [ValidationReport.enginePush, hc]

/-- C6: with `sh:closed`, the allowed predicate set is exactly the union
of the ignored properties and the direct IRI predicates of each nested
property shape's path (top-level sequence IRIs and direct alternative
members; inverse paths excluded), and the check appends exactly one
`sh:ClosedConstraintComponent` violation per outgoing triple of the focus
node whose predicate is not allowed, carrying the triple's object as the
result value. -/
theorem closed_allowed_predicates_and_violations
    (g : Graph) (shape : Shape) (focus : Term) (rep : ValidationReport)
    (cc : ClosedConstraint) (focusNode : Node)
    (hclosed : shape.closed = some cc)
    (hfocus : termToNamedOrBlank focus = some focusNode) :
    (∀ p : String,
        p ∈ shape.closedAllowedPredicates cc ↔
          p ∈ cc.ignoredProperties ∨
            ∃ ps ∈ shape.propertyShapes, ∃ path, ps.path = some path ∧
              (PathElement.iri p ∈ path.elements ∨
                ∃ alts, PathElement.alternative alts ∈ path.elements ∧
                  PathElement.iri p ∈ alts)) ∧
      (shape.validateClosedConstraint g focus rep).results =
        rep.results ++
          ((g.triplesForSubject focusNode).filter
              (fun t => !decide (t.pred ∈ shape.closedAllowedPredicates cc))).map
            (shape.closedViolation focus) ∧
      ∀ t : Triple,
        (shape.closedViolation focus t).value = some t.obj ∧
          (shape.closedViolation focus t).sourceConstraintComponent =
            some shClosedConstraintComponent := by
  refine ⟨?_, ?_, fun t => ⟨rfl, rfl⟩⟩
  · intro p
    unfold Shape.closedAllowedPredicates
    rw [List.mem_append, List.mem_flatMap]
    constructor
    · rintro (h | ⟨ps, hps, hmem⟩)
      · exact Or.inl h
      · right
        refine ⟨ps, hps, ?_⟩
        cases hpath : ps.path with
        | none => rw [hpath] at hmem; simp at hmem
        | some path =>
            rw [hpath] at hmem
            exact ⟨path, rfl, (mem_extractDirectPredicates p path).mp hmem⟩
    · rintro (h | ⟨ps, hps, path, hpath, hmem⟩)
      · exact Or.inl h
      · right
        exact ⟨ps, hps, by
          rw [hpath]
          exact (mem_extractDirectPredicates p path).mpr hmem⟩
  · simp only [Shape.validateClosedConstraint, hclosed, hfocus]
    exact foldl_closed_results
      (fun t => t.pred ∈ shape.closedAllowedPredicates cc)
      (shape.closedViolation focus) (g.triplesForSubject focusNode) rep

/-- `sh:ignoredProperties ( rdf:type )` for the concrete closed-shape
scenario. -/
def c6Closed : ClosedConstraint := { ignoredProperties := [rdfType] }

/-- A node shape with `sh:closed true`, ignoring `rdf:type`, with one
nested property shape on `urn:name`. -/
def c6Shape : Shape :=
  .mk (.named "urn:ClosedShape") none none none [] false [] shViolation []
    (some c6Closed)
    [.mk (.named "urn:nameShape") none none
        (some { source := none, elements := [PathElement.iri "urn:name"] })
        [] false [] shViolation [] none [] none]
    none

/-- Data: the subject has `urn:name`, `rdf:type`, and an extra predicate. -/
def c6Graph : Graph :=
  [{ subj := .named "urn:subject", pred := "urn:name",
     obj := .literal "X" "urn:string" none },
   { subj := .named "urn:subject", pred := rdfType, obj := .namedNode "urn:T" },
   { subj := .named "urn:subject", pred := "urn:extra",
     obj := .literal "1" "urn:int" none }]

/-- Witness for C6: on the concrete closed shape and data, exactly one
violation is emitted — for the `urn:extra` triple — and none for
`urn:name` or `rdf:type`. -/
theorem closed_allowed_predicates_and_violations_witness :
    (c6Shape.validateClosedConstraint c6Graph (Term.namedNode "urn:subject")
        ValidationReport.new).results =
      [c6Shape.closedViolation (Term.namedNode "urn:subject")
        { subj := .named "urn:subject", pred := "urn:extra",
          obj := .literal "1" "urn:int" none }] := by
  have h := (closed_allowed_predicates_and_violations c6Graph c6Shape
    (Term.namedNode "urn:subject") ValidationReport.new c6Closed
    (.named "urn:subject") rfl rfl).2.1
  rw [h]
  rfl

/-! ## Class constraint (`src/validation/constraints/class.rs`) and
`utils::is_subclass_of` -/

/-- The `is_instance` test of `ClassConstraint::validate`: the value node
(viewed as subject) has an `rdf:type` triple whose object is the target
class itself.  Literals never pass. -/
def classPasses (g : Graph) (cls : String) (v : Term) : Bool :=
  match termToNamedOrBlank v with
  | some n =>
      (g.triplesForSubject n).any fun t =>
        decide (t.pred = rdfType ∧ t.obj = Term.namedNode cls)
  | none => false

/-- Loop body of `ClassConstraint::validate` for one value node: no
violation when the direct `rdf:type` check succeeds, one violation
otherwise (with the literal case carrying its own message). -/
def classValidateValue (g : Graph) (cls : String) (focus : Term)
    (shape : Shape) (valueNode : Term) : List ValidationResult :=
  match termToNamedOrBlank valueNode with
  | some valueAsNode =>
      if (g.triplesForSubject valueAsNode).any
          (fun t => decide (t.pred = rdfType ∧ t.obj = Term.namedNode cls)) then []
      else
        [shape.buildValidationResult
          { focusNode := focus, value := some valueNode
            constraintMessages := ["Value is not an instance of class " ++ cls]
            constraintComponent := some shClassConstraintComponent
            constraintDetail := some ("sh:class " ++ cls) }]
  | none =>
      [shape.buildValidationResult
        { focusNode := focus, value := some valueNode
          constraintMessages := ["Value must be a node to check class membership"]
          constraintComponent := some shClassConstraintComponent
          constraintDetail := some ("sh:class " ++ cls) }]

/-- `ClassConstraint::validate`: the per-value check over all value
nodes. -/
def ClassConstraint.validate (g : Graph) (focus : Term)
    (valueNodes : List Term) (cls : String) (shape : Shape) :
    List ValidationResult :=
  valueNodes.flatMap (classValidateValue g cls focus shape)

/-- `utils::is_subclass_of`: worklist reachability from `node` to `cls`
along `rdfs:subClassOf` edges, the Rust `while` made explicit by fuel.
(The worklist order differs immaterially from the Rust LIFO `Vec`; the
returned boolean is reachability either way, and only concrete
evaluations of this function are used below.) -/
def isSubclassOfFuel (g : Graph) (cls : Node) :
    Nat → List Node → List Node → Bool
  | 0, _, _ => false
  | fuel + 1, toVisit, visited =>
      match toVisit with
      | [] => false
      | current :: rest =>
          if current = cls then true
          else
            let next :=
              if current ∈ visited then (visited, rest)
              else (current :: visited,
                rest ++ ((g.objectsForSubjectPredicate current
                    rdfsSubClassOf).filterMap termToNamedOrBlank))
            if cls ∈ next.2 then true
            else isSubclassOfFuel g cls fuel next.2 next.1

/-- `utils::is_subclass_of` at the draining fuel bound. -/
def isSubclassOf (g : Graph) (node cls : Node) : Bool :=
  isSubclassOfFuel g cls (2 * g.length + 2) [node] []

/-- One value node of `ClassConstraint::validate` emits nothing exactly
when the direct-type check passes, and exactly one violation otherwise. -/
theorem classValidateValue_empty_iff (g : Graph) (cls : String)
    (focus : Term) (shape : Shape) (v : Term) :
    (classValidateValue g cls focus shape v = [] ↔ classPasses g cls v = true) ∧
      (classValidateValue g cls focus shape v).length =
        (if classPasses g cls v then 0 else 1) := by
  cases hv : termToNamedOrBlank v with
  | none => simp [classValidateValue, classPasses, hv]
  | some n =>
      by_cases hinst : ∃ x ∈ g.triplesForSubject n,
          x.pred = rdfType ∧ x.obj = Term.namedNode cls
      · simp [classValidateValue, classPasses, hv, hinst]
      · simp [classValidateValue, classPasses, hv, hinst]

/-- C2 (amended): a value node that is an IRI or blank node passes the
`sh:class` check exactly when the data graph assigns it `rdf:type` whose
object is the target class itself — the `rdfs:subClassOf` closure is NOT
consulted — every literal value node yields a violation, and exactly one
violation is emitted per failing value node. -/
theorem class_validate_direct_type_only (g : Graph) (focus : Term)
    (valueNodes : List Term) (cls : String) (shape : Shape) :
    (ClassConstraint.validate g focus valueNodes cls shape = [] ↔
        ∀ v ∈ valueNodes, classPasses g cls v = true) ∧
      (∀ v : Term, classPasses g cls v = true ↔
        ∃ n, termToNamedOrBlank v = some n ∧
          ∃ t, t ∈ g ∧ t.subj = n ∧ t.pred = rdfType ∧
            t.obj = Term.namedNode cls) ∧
      (ClassConstraint.validate g focus valueNodes cls shape).length =
        (valueNodes.filter fun v => !classPasses g cls v).length ∧
      ∀ v ∈ valueNodes, v.isLiteral = true →
        ClassConstraint.validate g focus valueNodes cls shape ≠ [] := by
  refine ⟨?_, ?_, ?_, ?_⟩
  · unfold ClassConstraint.validate
    rw [List.flatMap_eq_nil_iff]
    constructor
    · intro h v hv
      exact (classValidateValue_empty_iff g cls focus shape v).1.mp (h v hv)
    · intro h v hv
      exact (classValidateValue_empty_iff g cls focus shape v).1.mpr (h v hv)
  · intro v
    cases hv : termToNamedOrBlank v with
    | none => simp [classPasses, hv]
    | some n =>
        simp only [classPasses, hv, List.any_eq_true, Graph.triplesForSubject,
          List.mem_filter, decide_eq_true_eq]
        constructor
        · rintro ⟨t, ⟨htg, hts⟩, htp, hto⟩
          exact ⟨n, rfl, t, htg, hts, htp, hto⟩
        · rintro ⟨n2, hn2, t, htg, hts, htp, hto⟩
          rw [Option.some.injEq] at hn2
          exact ⟨t, ⟨htg, hn2 ▸ hts⟩, htp, hto⟩
  · unfold ClassConstraint.validate
    induction valueNodes with
    | nil => simp
    | cons v rest ih =>
        rw [List.flatMap_cons, List.length_append, ih]
        by_cases hp : classPasses g cls v = true
        · have := (classValidateValue_empty_iff g cls focus shape v).2
          simp [hp] at this
          simp [this, hp]
        · have := (classValidateValue_empty_iff g cls focus shape v).2
          simp [hp] at this
          simp [this, hp, Nat.add_comm]
  · intro v hv hlit hnil
    unfold ClassConstraint.validate at hnil
    rw [List.flatMap_eq_nil_iff] at hnil
    have h1 := (classValidateValue_empty_iff g cls focus shape v).1.mp (hnil v hv)
    cases v with
    | literal a b c => simp [classPasses, termToNamedOrBlank] at h1
    | namedNode a => simp [Term.isLiteral] at hlit
    | blankNode a => simp [Term.isLiteral] at hlit

/-- Data for the C2 counterexample: `urn:v` has `rdf:type urn:D`, and
`urn:D rdfs:subClassOf urn:C`. -/
def c2Graph : Graph :=
  [{ subj := .named "urn:v", pred := rdfType, obj := .namedNode "urn:D" },
   { subj := .named "urn:D", pred := rdfsSubClassOf, obj := .namedNode "urn:C" }]

/-- C2 counterexample: `urn:D` IS a subclass of `urn:C` under the
transitive closure the claim invokes (as computed by the source's own
`utils::is_subclass_of`), and `urn:v` has `rdf:type urn:D`, yet
`ClassConstraint::validate` with target class `urn:C` emits a violation
for `urn:v` — refuting the claim that subclass-typed values pass. -/
theorem class_subclass_counterexample :
    isSubclassOf c2Graph (.named "urn:D") (.named "urn:C") = true ∧
      c2Graph.objectsForSubjectPredicate (.named "urn:v") rdfType =
        [.namedNode "urn:D"] ∧
      (ClassConstraint.validate c2Graph (.namedNode "urn:v")
          [.namedNode "urn:v"] "urn:C" defaultWitnessShape).length = 1 := by
  exact ⟨rfl, rfl, rfl⟩

/-! ## Constraint dispatch error handling (`Shape::validate_constraint`,
src/validation/mod.rs lines 694-700) -/

/-- The outcome handling at the end of `Shape::validate_constraint`: an
`Ok` list of violations is pushed into the report one by one (each push
clearing `conforms`), while an `Err` outcome is matched away by
`if let Ok(violations)` — nothing is added, nothing is raised. -/
def ValidationReport.applyConstraintOutcome (rep : ValidationReport)
    (violations : Except String (List ValidationResult)) : ValidationReport :=
  match violations with
  | .ok vs => vs.foldl (fun r v => r.enginePush v) rep
  | .error _ => rep

/-- `Shape::validate_constraint` over the embedded constraint variants:
dispatch to the validator, then fold the `Result` outcome into the
report (the value-range validators carry the abstract float parse and
comparison, see `compareValues`). -/
def Shape.validateConstraint {F : Type} (parseF64 : String → Option F)
    (fltLt : F → F → Bool) (shape : Shape) (g : Graph) (focus : Term)
    (valueNodes : List Term) (c : Constraint) (rep : ValidationReport) :
    ValidationReport :=
  let violations : Except String (List ValidationResult) :=
    match c with
    | .classConstraint cls =>
        .ok (ClassConstraint.validate g focus valueNodes cls shape)
    | .minCount n => .ok (MinCountConstraint.validate n focus valueNodes shape)
    | .maxCount n => .ok (MaxCountConstraint.validate n focus valueNodes shape)
    | .minExclusive t =>
        .ok (MinExclusiveConstraint.validate parseF64 fltLt t focus valueNodes shape)
    | .minInclusive t =>
        .ok (MinInclusiveConstraint.validate parseF64 fltLt t focus valueNodes shape)
    | .maxExclusive t =>
        .ok (MaxExclusiveConstraint.validate parseF64 fltLt t focus valueNodes shape)
    | .maxInclusive t =>
        .ok (MaxInclusiveConstraint.validate parseF64 fltLt t focus valueNodes shape)
  rep.applyConstraintOutcome violations

/-- C10: when a constraint validator returns `Err`, the engine leaves the
report exactly as it was — same results, same `conforms` — and the error
is discarded rather than surfaced; an `Ok` outcome, by contrast, appends
every returned violation. -/
theorem constraint_error_leaves_report_unchanged
    (rep : ValidationReport) (err : String) (vs : List ValidationResult) :
    rep.applyConstraintOutcome (Except.error err) = rep ∧
      (rep.applyConstraintOutcome (Except.error err)).results = rep.results ∧
      (rep.applyConstraintOutcome (Except.error err)).conforms = rep.conforms ∧
      (rep.applyConstraintOutcome (Except.ok vs)).results = rep.results ++ vs := by
  refine ⟨rfl, rfl, rfl, ?_⟩
  show (vs.foldl (fun r v => r.enginePush v) rep).results = rep.results ++ vs
  induction vs generalizing rep with
  | nil => simp
  | cons v rest ih =>
      rw [List.foldl_cons, ih]
      simp [ValidationReport.enginePush]

/-! ## Shape compiler (`src/parser/mod.rs`, `src/parser/path.rs`,
`src/parser/target.rs`, and the embedded constraint parsers) -/

def rdfsLabel : String := "http://www.w3.org/2000/01/rdf-schema#label"

def rdfsClass : String := "http://www.w3.org/2000/01/rdf-schema#Class"

def shPath : String := shNs ++ "path"

def shNodeShape : String := shNs ++ "NodeShape"

def shPropertyShape : String := shNs ++ "PropertyShape"

def shShape : String := shNs ++ "Shape"

def shTargetClass : String := shNs ++ "targetClass"

def shTargetNode : String := shNs ++ "targetNode"

def shTargetSubjectsOf : String := shNs ++ "targetSubjectsOf"

def shTargetObjectsOf : String := shNs ++ "targetObjectsOf"

def shTarget : String := shNs ++ "target"

def shSeverity : String := shNs ++ "severity"

def shName : String := shNs ++ "name"

def shDescription : String := shNs ++ "description"

def shDeactivated : String := shNs ++ "deactivated"

def shMessage : String := shNs ++ "message"

def shProperty : String := shNs ++ "property"

def shClosed : String := shNs ++ "closed"

def shIgnoredProperties : String := shNs ++ "ignoredProperties"

def shInversePath : String := shNs ++ "inversePath"

def shAlternativePath : String := shNs ++ "alternativePath"

def shZeroOrMorePath : String := shNs ++ "zeroOrMorePath"

def shOneOrMorePath : String := shNs ++ "oneOrMorePath"

def shZeroOrOnePath : String := shNs ++ "zeroOrOnePath"

def shClass : String := shNs ++ "class"

def shMinCount : String := shNs ++ "minCount"

def shMaxCount : String := shNs ++ "maxCount"

/-- `err::ShaclError` — the `Parse` variant is the one the compiler
raises. -/
inductive ShaclError where
  | parse (msg : String)
deriving DecidableEq, Repr

/-- `utils::get_string_value` (an IRI object is rendered as Rust's
`NamedNode` display form `<iri>`). -/
def getStringValue (g : Graph) (s : Node) (p : String) : Option String :=
  (g.objectForSubjectPredicate s p).bind fun t =>
    match t with
    | .literal v _ _ => some v
    | .namedNode nn => some ("<" ++ nn ++ ">")
    | .blankNode _ => none

/-- `utils::get_all_string_values` (literals only). -/
def getAllStringValues (g : Graph) (s : Node) (p : String) : List String :=
  (g.objectsForSubjectPredicate s p).filterMap fun t =>
    match t with
    | .literal v _ _ => some v
    | _ => none

/-- `utils::get_boolean_value` (`str::parse::<bool>` accepts exactly
`true` and `false`). -/
def getBooleanValue (g : Graph) (s : Node) (p : String) : Option Bool :=
  (g.objectForSubjectPredicate s p).bind fun t =>
    match t with
    | .literal v _ _ =>
        if v = "true" then some true
        else if v = "false" then some false
        else none
    | _ => none

/-- `str::parse::<i32>` on a lexical form. -/
def parseI32 (s : String) : Option Int :=
  let core (ds : List Char) (sign : Int) : Option Int :=
    if ds.length > 0 && ds.all Char.isDigit then
      let v : Int := sign * (digitsToNat ds : Int)
      if -(2 ^ 31) ≤ v ∧ v < 2 ^ 31 then some v else none
    else none
  match s.data with
  | '-' :: r => core r (-1)
  | '+' :: r => core r 1
  | r => core r 1

/-- `utils::get_integer_value` (`str::parse::<i32>`: optional sign,
digits, in-range). -/
def getIntegerValue (g : Graph) (s : Node) (p : String) : Option Int :=
  (g.objectForSubjectPredicate s p).bind fun t =>
    match t with
    | .literal v _ _ => parseI32 v
    | _ => none

/-- `utils::parse_rdf_list` as the compiler invokes it, run at the
graph-size fuel bound; on every input where the Rust loop terminates this
equals its result (`parse_rdf_list_diverges_on_cycle` exhibits the inputs
where the Rust loop never returns). -/
def parseRdfList (g : Graph) (listNode : Node) : List Term :=
  (parseRdfListFuel g (2 * g.length + 2) listNode []).getD []

/-- Fuel for the recursive path-element and nested-shape parses; the Rust
recursion depth is bounded by the triples it consumes on terminating
inputs (on cyclic shapes-graph structures the Rust recursion does not
terminate; here the fuel yields a parse error instead, outside the inputs
below). -/
def parseFuel (g : Graph) : Nat := 2 * g.length + 2

/-- `parser::path::parse_path_element`. -/
def parsePathElementFuel (g : Graph) : Nat → Node → Except ShaclError PathElement
  | 0, _ => .error (.parse "path recursion limit")
  | fuel + 1, node =>
      match g.objectForSubjectPredicate node shInversePath with
      | some (.namedNode iri) => .ok (.inverse iri)
      | _ =>
        match g.objectForSubjectPredicate node shAlternativePath with
        | some altObj => do
            let listNode ← match altObj with
              | .namedNode nn => pure (Node.named nn)
              | .blankNode bn => pure (Node.blank bn)
              | .literal _ _ _ => throw (ShaclError.parse "Invalid alternative path")
            let alternatives ← (parseRdfList g listNode).foldlM
              (fun (acc : List PathElement) item =>
                match item with
                | .namedNode iri => pure (acc ++ [PathElement.iri iri])
                | .blankNode bn => do
                    let e ← parsePathElementFuel g fuel (Node.blank bn)
                    pure (acc ++ [e])
                | .literal _ _ _ => pure acc) []
            pure (PathElement.alternative alternatives)
        | none =>
          match g.objectForSubjectPredicate node shZeroOrMorePath with
          | some obj => do
              let inner ← match obj with
                | .namedNode iri => pure (PathElement.iri iri)
                | .blankNode bn => parsePathElementFuel g fuel (Node.blank bn)
                | .literal _ _ _ =>
                    throw (ShaclError.parse "Invalid path in sh:zeroOrMorePath")
              pure (PathElement.zeroOrMore inner)
          | none =>
            match g.objectForSubjectPredicate node shOneOrMorePath with
            | some obj => do
                let inner ← match obj with
                  | .namedNode iri => pure (PathElement.iri iri)
                  | .blankNode bn => parsePathElementFuel g fuel (Node.blank bn)
                  | .literal _ _ _ =>
                      throw (ShaclError.parse "Invalid path in sh:oneOrMorePath")
                pure (PathElement.oneOrMore inner)
            | none =>
              match g.objectForSubjectPredicate node shZeroOrOnePath with
              | some obj => do
                  let inner ← match obj with
                    | .namedNode iri => pure (PathElement.iri iri)
                    | .blankNode bn => parsePathElementFuel g fuel (Node.blank bn)
                    | .literal _ _ _ =>
                        throw (ShaclError.parse "Invalid path in sh:zeroOrOnePath")
                  pure (PathElement.zeroOrOne inner)
              | none => .error (.parse "Could not parse path element")

/-- `parser::path::parse_path`. -/
def parsePath (g : Graph) (pathTerm : Term) : Except ShaclError Path :=
  match pathTerm with
  | .namedNode iri => .ok { source := none, elements := [.iri iri] }
  | .blankNode bn =>
      let node := Node.blank bn
      if (g.objectForSubjectPredicate node rdfFirst).isSome then do
        let elements ← (parseRdfList g node).foldlM
          (fun (acc : List PathElement) item =>
            match item with
            | .namedNode iri => pure (acc ++ [PathElement.iri iri])
            | .blankNode bn2 => do
                let e ← parsePathElementFuel g (parseFuel g) (Node.blank bn2)
                pure (acc ++ [e])
            | .literal _ _ _ =>
                throw (ShaclError.parse "Invalid path element in sequence")) []
        pure { source := some node, elements := elements }
      else do
        let e ← parsePathElementFuel g (parseFuel g) node
        pure { source := some node, elements := [e] }
  | .literal _ _ _ => .error (.parse "Invalid path: must be IRI or blank node")

/-- `parser::target::parse_targets`. -/
def parseTargets (g : Graph) (node : Node) : List Target :=
  let isClass := (g.objectsForSubjectPredicate node rdfType).any fun t =>
    match t with
    | .namedNode nn => decide (nn = rdfsClass)
    | _ => false
  (if isClass then [Target.classTarget node] else []) ++
    ((g.objectsForSubjectPredicate node shTargetClass).filterMap fun obj =>
      match obj with
      | .namedNode nn => some (Target.classTarget (.named nn))
      | .blankNode bn => some (Target.classTarget (.blank bn))
      | _ => none) ++
    ((g.objectsForSubjectPredicate node shTargetNode).map Target.node) ++
    ((g.objectsForSubjectPredicate node shTargetSubjectsOf).filterMap fun obj =>
      match obj with
      | .namedNode p => some (Target.subjectsOf p)
      | _ => none) ++
    ((g.objectsForSubjectPredicate node shTargetObjectsOf).filterMap fun obj =>
      match obj with
      | .namedNode p => some (Target.objectsOf p)
      | _ => none) ++
    ((g.objectsForSubjectPredicate node shTarget).filterMap fun obj =>
      match obj with
      | .namedNode nn => some (Target.advanced (.named nn))
      | .blankNode bn => some (Target.advanced (.blank bn))
      | _ => none)

/-- `parser::parse_severity`. -/
def parseSeverity (g : Graph) (node : Node) (dflt : String) : String :=
  match g.objectForSubjectPredicate node shSeverity with
  | some (.namedNode nn) => nn
  | _ => dflt

/-- Rebuild helpers mirroring the Rust builder methods on `Shape`. -/
def Shape.addTargets : Shape → List Target → Shape
  | .mk n nm ds p tg d m sv c cl ps pr, ts => .mk n nm ds p (tg ++ ts) d m sv c cl ps pr

def Shape.addConstraints : Shape → List Constraint → Shape
  | .mk n nm ds p tg d m sv c cl ps pr, cs => .mk n nm ds p tg d m sv (c ++ cs) cl ps pr

def Shape.withClosedOpt : Shape → Option ClosedConstraint → Shape
  | s, none => s
  | .mk n nm ds p tg d m sv c _ ps pr, some cl => .mk n nm ds p tg d m sv c (some cl) ps pr

def Shape.addPropertyShape : Shape → Shape → Shape
  | .mk n nm ds p tg d m sv c cl ps pr, ns => .mk n nm ds p tg d m sv c cl (ps ++ [ns]) pr

def Shape.withParent : Shape → Node → Shape
  | .mk n nm ds p tg d m sv c cl ps _, pr => .mk n nm ds p tg d m sv c cl ps (some pr)

/-- `parser::apply_common_shape_properties`: name (`sh:name` or
`rdfs:label`), description, deactivated, messages (a Rust `HashSet`,
modelled as an append), and the parent back-link. -/
def applyCommonShapeProperties (g : Graph) (node : Node)
    (parent : Option Node) : Shape → Shape
  | .mk n nm ds p tg d m sv c cl ps pr =>
      let nm2 := match getStringValue g node shName with
        | some v => some v
        | none => match getStringValue g node rdfsLabel with
          | some v => some v
          | none => nm
      let ds2 := match getStringValue g node shDescription with
        | some v => some v
        | none => ds
      let d2 := match getBooleanValue g node shDeactivated with
        | some v => v
        | none => d
      let m2 := m ++ getAllStringValues g node shMessage
      let pr2 := match parent with
        | some p2 => some p2
        | none => pr
      .mk n nm2 ds2 p tg d2 m2 sv c cl ps pr2

/-- `parser::parse_closed_constraint` (note: only an IRI list head is
decoded; a blank-node or literal `sh:ignoredProperties` object yields an
empty ignored list). -/
def parseClosedConstraint (g : Graph) (node : Node) : Option ClosedConstraint :=
  match getBooleanValue g node shClosed with
  | some true =>
      match g.objectForSubjectPredicate node shIgnoredProperties with
      | some (.namedNode nn) =>
          some { ignoredProperties :=
            (parseRdfList g (.named nn)).filterMap fun t =>
              match t with
              | .namedNode p => some p
              | _ => none }
      | some _ => some { ignoredProperties := [] }
      | none => some { ignoredProperties := [] }
  | _ => none

/-- `parser::constraints::class::parser`. -/
def parseClassConstraints (g : Graph) (node : Node) :
    Except ShaclError (List Constraint) :=
  .ok ((g.objectsForSubjectPredicate node shClass).filterMap fun t =>
    match t with
    | .namedNode nn => some (Constraint.classConstraint nn)
    | _ => none)

/-- `parser::constraints::min_count::parser`. -/
def parseMinCountConstraints (g : Graph) (node : Node) :
    Except ShaclError (List Constraint) :=
  .ok (match getIntegerValue g node shMinCount with
    | some v => [Constraint.minCount v]
    | none => [])

/-- `parser::constraints::max_count::parser`. -/
def parseMaxCountConstraints (g : Graph) (node : Node) :
    Except ShaclError (List Constraint) :=
  .ok (match getIntegerValue g node shMaxCount with
    | some v => [Constraint.maxCount v]
    | none => [])

/-- `parser::parse_all_constraints`, restricted to the embedded constraint
parsers of the fixed dispatch table (class, minCount, maxCount — each a
direct graph read that never errors); the remaining parsers contribute no
constraints on graphs that do not use their predicates, which covers
every input below. -/
def parseAllConstraints (g : Graph) (node : Node) (_isPropertyShape : Bool) :
    Except ShaclError (List Constraint) := do
  let c1 ← parseClassConstraints g node
  let c2 ← parseMinCountConstraints g node
  let c3 ← parseMaxCountConstraints g node
  pure (c1 ++ c2 ++ c3)

/-- `parser::parse_property_shape` (nested property shapes via
`parse_nested_property_shapes`, whose `.ok()` filter silently drops a
nested shape whose own parse fails); recursion depth tracked by fuel. -/
def parsePropertyShapeFuel (g : Graph) :
    Nat → Node → String → Option Node → Except ShaclError Shape
  | 0, _, _, _ => .error (.parse "shape recursion limit")
  | fuel + 1, node, parentSeverity, parent => do
      let path ← match g.objectForSubjectPredicate node shPath with
        | some pathObj => parsePath g pathObj
        | none => throw (ShaclError.parse "Property shape must have sh:path")
      let severity := parseSeverity g node parentSeverity
      let constraints ← parseAllConstraints g node true
      let propShape :=
        Shape.mk node none none (some path) [] false [] severity [] none [] none
      let propShape := propShape.addConstraints constraints
      let propShape := applyCommonShapeProperties g node parent propShape
      let nested := (g.objectsForSubjectPredicate node shProperty).filterMap fun t =>
        (termToNamedOrBlank t).bind fun n =>
          match parsePropertyShapeFuel g fuel n severity (some node) with
          | .ok s => some s
          | .error _ => none
      pure (nested.foldl Shape.addPropertyShape propShape)

/-- `parser::parse_nested_property_shapes` for the node-shape and
top-level-property-shape callers. -/
def parseNestedPropertyShapes (g : Graph) (fuel : Nat) (node : Node)
    (parentSeverity : String) (parent : Option Node) : List Shape :=
  (g.objectsForSubjectPredicate node shProperty).filterMap fun t =>
    (termToNamedOrBlank t).bind fun n =>
      match parsePropertyShapeFuel g fuel n parentSeverity parent with
      | .ok s => some s
      | .error _ => none

/-- `parser::parse_node_shape_internal` (note the Rust quirk: appending a
nested property shape also sets the shape's own parent back-link to its
own node). -/
def parseNodeShapeInternalFuel (g : Graph) (fuel : Nat) (node : Node)
    (severity : String) (includeTargets : Bool) (parent : Option Node) :
    Except ShaclError Shape := do
  let shape := applyCommonShapeProperties g node parent
    (Shape.mk node none none none [] false [] severity [] none [] none)
  let shape := if includeTargets then shape.addTargets (parseTargets g node) else shape
  let shape := shape.withClosedOpt (parseClosedConstraint g node)
  let nested := parseNestedPropertyShapes g fuel node severity (some node)
  let shape := nested.foldl (fun s ns => (s.addPropertyShape ns).withParent node) shape
  let nodeConstraints ← parseAllConstraints g node false
  pure (shape.addConstraints nodeConstraints)

/-- `parser::parse_top_level_property_shape`. -/
def parseTopLevelPropertyShapeFuel (g : Graph) (fuel : Nat) (node : Node)
    (pathObj : Term) (parent : Option Node) : Except ShaclError Shape := do
  let path ← parsePath g pathObj
  let severity := parseSeverity g node shViolation
  let shape := applyCommonShapeProperties g node parent
    (Shape.mk node none none (some path) [] false [] severity [] none [] none)
  let shape := shape.addTargets (parseTargets g node)
  let constraints ← parseAllConstraints g node true
  let shape := shape.addConstraints constraints
  let nested := parseNestedPropertyShapes g fuel node severity (some node)
  pure (nested.foldl (fun s ns => (s.addPropertyShape ns).withParent node) shape)

/-- `parser::parse_shape`: dispatch on the presence of `sh:path`. -/
def parseShapeFuel (g : Graph) (fuel : Nat) (node : Node)
    (parent : Option Node) : Except ShaclError Shape :=
  match g.objectForSubjectPredicate node shPath with
  | some pathObj => parseTopLevelPropertyShapeFuel g fuel node pathObj parent
  | none =>
      let severity := parseSeverity g node shViolation
      parseNodeShapeInternalFuel g fuel node severity true parent

/-- Deduplicate shape nodes keeping first occurrences (the Rust
`HashSet`, with the list order standing in for its iteration order). -/
def dedupNodesKeepFirst (seen : List Node) : List Node → List Node
  | [] => []
  | n :: rest =>
      if n ∈ seen then dedupNodesKeepFirst seen rest
      else n :: dedupNodesKeepFirst (n :: seen) rest

/-- `parser::find_shape_nodes`: subjects typed as shapes plus subjects of
shape-defining predicates, deduplicated. -/
def findShapeNodes (g : Graph) : List Node :=
  let typed := [shNodeShape, shPropertyShape, shShape].flatMap fun st =>
    g.subjectsForPredicateObject rdfType (.namedNode st)
  let targeting :=
    [shTargetClass, shTargetNode, shTargetSubjectsOf, shTargetObjectsOf,
      shTarget].flatMap fun p => (g.triplesForPredicate p).map Triple.subj
  dedupNodesKeepFirst [] (typed ++ targeting)

/-- `parser::parse_shapes`: parse every discovered shape node, skipping —
with only a logged warning — each one whose parse fails; the function
always returns `Ok` with the surviving shapes. -/
def parseShapes (g : Graph) : Except ShaclError (List Shape) :=
  .ok ((findShapeNodes g).filterMap fun node =>
    match parseShapeFuel g (parseFuel g) node none with
    | .ok s => some s
    | .error _ => none)

/-- C4 (amended): a path parse error is fatal only to the containing
top-level shape — the failed shape is absent from the returned list and
every shape whose own parse succeeds is present — but the error does NOT
surface via the compile result: `parse_shapes` returns `Ok` on every
graph, the failure being only logged. -/
theorem parseShapes_always_ok (g : Graph) :
    (∀ e : ShaclError, parseShapes g ≠ Except.error e) ∧
      ∀ s : Shape,
        (∃ shapes, parseShapes g = Except.ok shapes ∧ s ∈ shapes) ↔
          ∃ n ∈ findShapeNodes g,
            parseShapeFuel g (parseFuel g) n none = Except.ok s := by
  constructor
  · intro e h
    simp [parseShapes] at h
  · intro s
    constructor
    · rintro ⟨shapes, hok, hmem⟩
      have hsh : shapes = (findShapeNodes g).filterMap fun node =>
          match parseShapeFuel g (parseFuel g) node none with
          | .ok s => some s
          | .error _ => none := by
        have := hok
        simp only [parseShapes, Except.ok.injEq] at this
        exact this.symm
      subst hsh
      rcases List.mem_filterMap.mp hmem with ⟨n, hn, hf⟩
      refine ⟨n, hn, ?_⟩
      cases hp : parseShapeFuel g (parseFuel g) n none with
      | ok s2 =>
          rw [hp] at hf
          simp only [Option.some.injEq] at hf
          rw [hf]
      | error e => rw [hp] at hf; cases hf
    · rintro ⟨n, hn, hp⟩
      exact ⟨_, rfl, List.mem_filterMap.mpr ⟨n, hn, by rw [hp]⟩⟩

/-- Shapes graph for the C4 counterexample: `urn:s1` carries a malformed
`sh:path` (a literal) and a target; `urn:s2` is a well-formed node shape
with a target. -/
def c4Graph : Graph :=
  [{ subj := .named "urn:s1", pred := shPath, obj := .literal "bad" "urn:string" none },
   { subj := .named "urn:s1", pred := shTargetNode, obj := .namedNode "urn:x1" },
   { subj := .named "urn:s2", pred := shTargetNode, obj := .namedNode "urn:x2" }]

/-- C4 counterexample: parsing `urn:s1` fails with the fatal path parse
error, yet `parse_shapes` returns `Ok` containing only the surviving
shape `urn:s2` — the error is not surfaced through the compile result,
refuting the claim as stated. -/
theorem parseShapes_error_not_surfaced_counterexample :
    parseShapeFuel c4Graph (parseFuel c4Graph) (.named "urn:s1") none =
        Except.error (.parse "Invalid path: must be IRI or blank node") ∧
      parseShapes c4Graph =
        Except.ok [Shape.mk (.named "urn:s2") none none none
          [Target.node (.namedNode "urn:x2")] false [] shViolation [] none [] none] :=
  ⟨rfl, rfl⟩

/-! ## SPARQL constraint (`src/validation/constraints/sparql.rs`,
`utils::inject_values_bindings`, `utils::rewrite_this_binding_query`) -/

/-- The fixed shapes-graph IRI (`validation::dataset::SHAPES_GRAPH_IRI`). -/
def shapesGraphIri : String := "urn:shacl:shapes-graph"

/-- Rust `Display` rendering of a term, as used when assembling
pre-binding values (literal datatype/language suffixes are elided — the
rendered strings only flow into the abstract engine). -/
def Term.display : Term → String
  | .namedNode iri => "<" ++ iri ++ ">"
  | .blankNode b => "_:" ++ b
  | .literal v _ _ => "\"" ++ v ++ "\""

/-- Index of the first occurrence of `needle` in `haystack`. -/
def findSubstrIdx (needle : List Char) : List Char → Option Nat
  | [] => if needle = [] then some 0 else none
  | c :: rest =>
      if needle.isPrefixOf (c :: rest) then some 0
      else (findSubstrIdx needle rest).map (· + 1)

/-- Rust `str::contains` for plain substrings. -/
def containsSubstr (haystack needle : String) : Bool :=
  (findSubstrIdx needle.data haystack.data).isSome

/-- Rust `str::replace('\n', " ")`. -/
def flattenNewlines (s : String) : String :=
  String.mk (s.data.map fun ch => if ch = '\n' then ' ' else ch)

/-- Rust `str::replace(needle, repl)` (leftmost, non-overlapping), fuel
bounded by the input length. -/
def replaceSubstrFuel (needle repl : List Char) : Nat → List Char → List Char
  | 0, cs => cs
  | fuel + 1, cs =>
      match cs with
      | [] => []
      | c :: rest =>
          if needle ≠ [] ∧ needle.isPrefixOf (c :: rest) then
            repl ++ replaceSubstrFuel needle repl fuel ((c :: rest).drop needle.length)
          else c :: replaceSubstrFuel needle repl fuel rest

/-- Rust `str::replace` wrapper. -/
def replaceSubstr (s needle repl : String) : String :=
  String.mk (replaceSubstrFuel needle.data repl.data s.data.length s.data)

/-- `utils::inject_values_bindings`: insert a `VALUES` block right after
the `{` that follows the first (case-insensitive) `WHERE`; prepend the
block when no such position exists. -/
def injectValuesBindings (query : String) (bindings : List (String × String)) :
    String :=
  if bindings.isEmpty then query
  else
    let valuesBlock := bindings.foldl
      (fun acc b => acc ++ "\nVALUES $" ++ b.1 ++ " \x7b " ++ b.2 ++ " \x7d") ""
    let chars := query.data
    let upper := chars.map Char.toUpper
    match findSubstrIdx "WHERE".data upper with
    | some wherePos =>
        match (chars.drop wherePos).findIdx? (fun ch => ch = Char.ofNat 123) with
        | some relBrace =>
            let insertAt := wherePos + relBrace + 1
            String.mk (chars.take insertAt ++ valuesBlock.data ++ chars.drop insertAt)
        | none => valuesBlock ++ "\n" ++ query
    | none => valuesBlock ++ "\n" ++ query

/-- Whitespace class of the `\s` in the rewrite regex. -/
def isSpaceChar (c : Char) : Bool :=
  c = ' ' || c = '\t' || c = '\n' || c = '\r'

def countLeadingSpaces : List Char → Nat
  | [] => 0
  | c :: rest => if isSpaceChar c then countLeadingSpaces rest + 1 else 0

/-- Match a leading case-insensitive `WHERE\s*{`, returning its length. -/
def matchWhereBrace (cs : List Char) : Option Nat :=
  if (cs.take 5).map Char.toUpper = "WHERE".data then
    let after := cs.drop 5
    let nsp := countLeadingSpaces after
    match (after.drop nsp).head? with
    | some c => if c = Char.ofNat 123 then some (5 + nsp + 1) else none
    | none => none
  else none

/-- Scanner for the `(?i)WHERE\s*\x7b` replace-all: append the `BIND`
clause after each match. -/
def scanWhereBind (bindClause : List Char) : Nat → List Char → List Char
  | 0, cs => cs
  | fuel + 1, cs =>
      match cs with
      | [] => []
      | c :: rest =>
          match matchWhereBrace (c :: rest) with
          | some k =>
              (c :: rest).take k ++ bindClause ++
                scanWhereBind bindClause fuel ((c :: rest).drop k)
          | none => c :: scanWhereBind bindClause fuel rest

/-- `utils::rewrite_this_binding_query`: normalize `$this` to `?this` and
insert `BIND(<focus> AS ?this) .` after every `WHERE {`. -/
def rewriteThisBindingQuery (query : String) (thisTerm : String) : String :=
  let normalized := replaceSubstr query "$this" "?this"
  let bindClause := " BIND (" ++ thisTerm ++ " AS ?this) ."
  String.mk (scanWhereBind bindClause.data normalized.data.length normalized.data)

/-- `spargebra::algebra::GraphPattern` as traversed by
`unsupported_in_pattern`. -/
inductive GraphPattern where
  | bgp
  | pathPat
  | valuesPat
  | minus (l r : GraphPattern)
  | service (inner : GraphPattern)
  | join (l r : GraphPattern)
  | unionPat (l r : GraphPattern)
  | leftJoin (l r : GraphPattern)
  | lateral (l r : GraphPattern)
  | filter (inner : GraphPattern)
  | graphPat (inner : GraphPattern)
  | extend (inner : GraphPattern)
  | orderBy (inner : GraphPattern)
  | distinct (inner : GraphPattern)
  | reduced (inner : GraphPattern)
  | slice (inner : GraphPattern)
  | group (inner : GraphPattern)
  | project (inner : GraphPattern)

/-- `sparql::unsupported_in_pattern`: reject `MINUS` and `SERVICE`
outright; reject `Project` (a nested `SELECT`) once the outer `SELECT`'s
own projection allowance is used up; recurse elsewhere. -/
def unsupportedInPattern : GraphPattern → Nat → Option String
  | .minus _ _, _ => some "MINUS is not supported for SHACL pre-binding"
  | .service _, _ => some "SERVICE is not supported for SHACL pre-binding"
  | .project inner, remaining =>
      if remaining = 0 then
        some "Nested SELECT is not supported for SHACL pre-binding"
      else unsupportedInPattern inner (remaining - 1)
  | .join l r, remaining =>
      (unsupportedInPattern l remaining).orElse fun _ =>
        unsupportedInPattern r remaining
  | .unionPat l r, remaining =>
      (unsupportedInPattern l remaining).orElse fun _ =>
        unsupportedInPattern r remaining
  | .leftJoin l r, remaining =>
      (unsupportedInPattern l remaining).orElse fun _ =>
        unsupportedInPattern r remaining
  | .lateral l r, remaining =>
      (unsupportedInPattern l remaining).orElse fun _ =>
        unsupportedInPattern r remaining
  | .filter inner, remaining => unsupportedInPattern inner remaining
  | .graphPat inner, remaining => unsupportedInPattern inner remaining
  | .extend inner, remaining => unsupportedInPattern inner remaining
  | .orderBy inner, remaining => unsupportedInPattern inner remaining
  | .distinct inner, remaining => unsupportedInPattern inner remaining
  | .reduced inner, remaining => unsupportedInPattern inner remaining
  | .slice inner, remaining => unsupportedInPattern inner remaining
  | .group inner, remaining => unsupportedInPattern inner remaining
  | .bgp, _ => none
  | .pathPat, _ => none
  | .valuesPat, _ => none

/-- `spargebra::Query` shapes relevant to the pre-binding check. -/
inductive ParsedQuery where
  | select (pattern : GraphPattern)
  | ask (pattern : GraphPattern)
  | construct (pattern : GraphPattern)
  | describe (pattern : GraphPattern)

/-- Query execution outcomes (`oxigraph::sparql::QueryResults`); each
SELECT row is a binding list or a per-row error the Rust code skips. -/
inductive QueryOutcome where
  | solutions (rows : List (Except String (List (String × String))))
  | boolean (value : Bool)
  | other

/-- The external SPARQL machinery `SparqlConstraint::validate` consumes —
the `spargebra` parser (for the pre-binding check), oxigraph's
`SparqlEvaluator::parse_query` (prepared queries modelled by their bound
query text) and store execution.  The spec treats this subsystem as an
abstract executor; the theorems below hold for every engine. -/
structure SparqlEngine where
  parseAlgebra : List (String × String) → String → Option ParsedQuery
  parseQuery : List (String × String) → String → Except String String
  execute : String → Except String QueryOutcome

/-- `core::constraints::SparqlExecutable`. -/
inductive SparqlExecutable where
  | select (query : String)
  | ask (query : String)

def SparqlExecutable.query : SparqlExecutable → String
  | .select q => q
  | .ask q => q

/-- `core::constraints::SparqlConstraint` (the unused `source_constraint`
back-pointer is elided). -/
structure SparqlConstraint where
  executable : SparqlExecutable
  messages : List String
  prefixes : List (String × String)
  parameterBindings : List (String × Term)
  sourceConstraintComponent : Option Node

/-- `sparql::constraint_component`. -/
def SparqlConstraint.constraintComponent (c : SparqlConstraint) : String :=
  match c.sourceConstraintComponent with
  | some (.named component) => component
  | _ => shSparqlConstraintComponent

/-- `sparql::unsupported_prebinding_construct`: parse the query to its
algebra (with the constraint's prefixes); an unparseable query is not
rejected here. -/
def unsupportedPrebindingConstruct (engine : SparqlEngine) (query : String)
    (prefixes : List (String × String)) : Option String :=
  match engine.parseAlgebra prefixes query with
  | none => none
  | some (.select pattern) => unsupportedInPattern pattern 1
  | some (.ask pattern) => unsupportedInPattern pattern 0
  | some (.construct pattern) => unsupportedInPattern pattern 0
  | some (.describe pattern) => unsupportedInPattern pattern 0

/-- `sparql::normalize_binding_value`: strip IRI brackets. -/
def normalizeBindingValue (value : String) : String :=
  if value.length ≥ 2 && value.startsWith "<" && value.endsWith ">" then
    (value.drop 1).dropRight 1
  else value

/-- `sparql::apply_message_bindings`. -/
def applyMessageBindings (template : String)
    (contextBindings resultBindings : List (String × String)) : String :=
  (contextBindings ++ resultBindings).foldl
    (fun rendered b =>
      let normalized := normalizeBindingValue b.2
      replaceSubstr (replaceSubstr rendered ("\x7b?" ++ b.1 ++ "\x7d") normalized)
        ("\x7b$" ++ b.1 ++ "\x7d") normalized)
    template

/-- `sparql::render_messages_for_solution`. -/
def renderMessagesForSolution (messages : List String)
    (contextBindings resultBindings : List (String × String)) : List String :=
  messages.map fun m => applyMessageBindings m contextBindings resultBindings

/-- The binding set assembled for one target iteration of
`SparqlConstraint::validate` (`this`, `shapesGraph`, `currentShape`,
optional `value`, optional `PATH` from the first direct predicate of the
shape's path, then the component parameter bindings). -/
def SparqlConstraint.sparqlBindings (c : SparqlConstraint) (focus : Term)
    (path : Option Path) (shape : Shape) (maybeValue : Option Term) :
    List (String × String) :=
  [("this", focus.display),
   ("shapesGraph", "<" ++ shapesGraphIri ++ ">"),
   ("currentShape", shape.node.toTerm.display)] ++
    (match maybeValue with
      | some value => [("value", value.display)]
      | none => []) ++
    (match path with
      | some p =>
          match (extractDirectPredicates p).head? with
          | some predicate => [("PATH", "<" ++ predicate ++ ">")]
          | none => []
      | none => []) ++
    (c.parameterBindings.map fun b => (b.1, b.2.display))

/-- The `run_once_targets` assembly of `SparqlConstraint::validate`. -/
def SparqlConstraint.runOnceTargets (c : SparqlConstraint) (path : Option Path)
    (focus : Term) (valueNodes : List Term) : List (Option Term) :=
  if path.isSome then
    if valueNodes.isEmpty then [none] else valueNodes.map some
  else if c.sourceConstraintComponent.isSome then [some focus]
  else [none]

/-- One iteration of the `for maybe_value in run_once_targets` loop of
`SparqlConstraint::validate`, returning the violations this iteration
appends (every branch only appends to the shared vector; the parse-error
branch `continue`s past the fallback). -/
def sparqlIterateOnce (engine : SparqlEngine) (c : SparqlConstraint)
    (focus : Term) (path : Option Path) (shape : Shape) (queryText : String)
    (maybeValue : Option Term) : List ValidationResult :=
  let bindings := c.sparqlBindings focus path shape maybeValue
  let boundQuery := injectValuesBindings queryText bindings
  match engine.parseQuery c.prefixes boundQuery with
  | .error err =>
      [shape.buildValidationResult
        { focusNode := focus
          constraintMessages := ["SPARQL parse error: " ++ err]
          constraintComponent := some c.constraintComponent
          constraintDetail := some ("SPARQL query: " ++ flattenNewlines boundQuery)
          value := maybeValue }]
  | .ok prepared =>
      let primary : List ValidationResult :=
        match c.executable, engine.execute prepared with
        | .select _, .ok (.solutions rows) =>
            rows.filterMap fun row =>
              match row with
              | .ok solution =>
                  some (shape.buildValidationResult
                    { focusNode := focus
                      constraintComponent := some c.constraintComponent
                      constraintDetail :=
                        some ("SPARQL SELECT: " ++ flattenNewlines boundQuery)
                      value := maybeValue
                      constraintMessages :=
                        if c.messages.isEmpty then
                          ["SPARQL SELECT constraint violation"]
                        else renderMessagesForSolution c.messages bindings solution })
              | .error _ => none
        | .ask _, .ok (.boolean result) =>
            if result then []
            else
              [shape.buildValidationResult
                { focusNode := focus
                  constraintComponent := some c.constraintComponent
                  constraintDetail :=
                    some ("SPARQL ASK: " ++ flattenNewlines boundQuery)
                  value := maybeValue
                  constraintMessages :=
                    if c.messages.isEmpty then ["SPARQL ASK constraint violation"]
                    else c.messages }]
        | _, .ok _ => []
        | _, .error err =>
            [shape.buildValidationResult
              { focusNode := focus
                constraintComponent := some c.constraintComponent
                constraintMessages := ["SPARQL execution error: " ++ err]
                constraintDetail :=
                  some ("SPARQL query: " ++ flattenNewlines boundQuery)
                value := maybeValue }]
      let hasThisVar :=
        containsSubstr queryText "$this" || containsSubstr queryText "?this"
      if primary.isEmpty && hasThisVar then
        let rewrittenQuery := rewriteThisBindingQuery queryText focus.display
        let fallbackViolations : List ValidationResult :=
          match engine.parseQuery c.prefixes rewrittenQuery with
          | .ok fallbackPrepared =>
              match c.executable, engine.execute fallbackPrepared with
              | .select _, .ok (.solutions rows) =>
                  rows.filterMap fun row =>
                    match row with
                    | .ok solution =>
                        some (shape.buildValidationResult
                          { focusNode := focus
                            constraintComponent := some c.constraintComponent
                            constraintDetail :=
                              some ("SPARQL SELECT (fallback): " ++
                                flattenNewlines rewrittenQuery)
                            value := maybeValue
                            constraintMessages :=
                              if c.messages.isEmpty then
                                ["SPARQL SELECT constraint violation"]
                              else
                                renderMessagesForSolution c.messages bindings
                                  solution })
                    | .error _ => none
              | .ask _, .ok (.boolean result) =>
                  if result then []
                  else
                    [shape.buildValidationResult
                      { focusNode := focus
                        constraintComponent := some c.constraintComponent
                        constraintDetail :=
                          some ("SPARQL ASK (fallback): " ++
                            flattenNewlines rewrittenQuery)
                        value := maybeValue
                        constraintMessages :=
                          if c.messages.isEmpty then
                            ["SPARQL ASK constraint violation"]
                          else c.messages }]
              | _, _ => []
          | .error _ => []
        let unresolvedPrebinding := fallbackViolations.isEmpty &&
          (containsSubstr queryText "bound($this" ||
            containsSubstr queryText "bound(?this" ||
            containsSubstr queryText "UNION")
        fallbackViolations ++
          (if unresolvedPrebinding then
            [shape.buildValidationResult
              { focusNode := focus
                constraintComponent := some c.constraintComponent
                constraintDetail :=
                  some ("SPARQL pre-binding fallback: " ++
                    flattenNewlines queryText)
                constraintMessages :=
                  if c.messages.isEmpty then ["SPARQL pre-binding violation"]
                  else c.messages
                value := maybeValue }]
          else [])
      else primary

/-- `SparqlConstraint::validate`: reject unsupported pre-binding
constructs with a single violation, otherwise run each target once; the
function is `Ok` on every input. -/
def SparqlConstraint.validate (engine : SparqlEngine) (c : SparqlConstraint)
    (focus : Term) (path : Option Path) (valueNodes : List Term)
    (shape : Shape) : Except ShaclError (List ValidationResult) :=
  let queryText := c.executable.query
  match unsupportedPrebindingConstruct engine queryText c.prefixes with
  | some reason =>
      .ok [shape.buildValidationResult
        { focusNode := focus
          constraintComponent := some c.constraintComponent
          constraintDetail := some (reason ++ ": " ++ flattenNewlines queryText)
          constraintMessages :=
            if c.messages.isEmpty then ["SPARQL pre-binding violation"]
            else c.messages
          value := valueNodes.head? }]
  | none =>
      .ok ((c.runOnceTargets path focus valueNodes).foldl
        (fun violations maybeValue =>
          violations ++
            sparqlIterateOnce engine c focus path shape queryText maybeValue)
        [])

/-- The message-dedup pass keeps the head of a fresh message list. -/
theorem retainFirstOccurrences_cons_head (m : String) (rest : List String) :
    retainFirstOccurrences [] (m :: rest) =
      m :: retainFirstOccurrences [m] rest := by
  simp [retainFirstOccurrences]

/-- The violations vector accumulated by the target loop is the
concatenation of the per-iteration contributions. -/
theorem foldl_append_flatMap (f : Option Term → List ValidationResult) :
    ∀ (l : List (Option Term)) (acc : List ValidationResult),
      l.foldl (fun vs x => vs ++ f x) acc = acc ++ l.flatMap f := by
  intro l
  induction l with
  | nil => intro acc; simp
  | cons x rest ih => intro acc; simp [ih]

/-- `validate` with no pre-binding rejection returns the concatenated
per-target contributions, wrapped in `Ok`. -/
theorem sparqlValidate_eq_flatMap (engine : SparqlEngine)
    (c : SparqlConstraint) (focus : Term) (path : Option Path)
    (valueNodes : List Term) (shape : Shape)
    (hunsup : unsupportedPrebindingConstruct engine c.executable.query
      c.prefixes = none) :
    SparqlConstraint.validate engine c focus path valueNodes shape =
      Except.ok ((c.runOnceTargets path focus valueNodes).flatMap
        (sparqlIterateOnce engine c focus path shape c.executable.query)) := by
  simp only [SparqlConstraint.validate, hunsup]
  rw [foldl_append_flatMap]
  simp

/-- An iteration whose bound-query parse fails contributes exactly the
parse-error violation (the Rust `continue` skips the fallback). -/
theorem sparqlIterateOnce_parse_error (engine : SparqlEngine)
    (c : SparqlConstraint) (focus : Term) (path : Option Path) (shape : Shape)
    (queryText : String) (maybeValue : Option Term) (err : String)
    (hparse : engine.parseQuery c.prefixes
      (injectValuesBindings queryText
        (c.sparqlBindings focus path shape maybeValue)) = Except.error err) :
    sparqlIterateOnce engine c focus path shape queryText maybeValue =
      [shape.buildValidationResult
        { focusNode := focus
          constraintMessages := ["SPARQL parse error: " ++ err]
          constraintComponent := some c.constraintComponent
          constraintDetail := some ("SPARQL query: " ++
            flattenNewlines (injectValuesBindings queryText
              (c.sparqlBindings focus path shape maybeValue)))
          value := maybeValue }] := by
  simp only [sparqlIterateOnce, hparse]

/-- An iteration whose bound query parses but whose execution fails
contributes exactly the execution-error violation, whatever the
executable kind (the nonempty `primary` list suppresses the fallback). -/
theorem sparqlIterateOnce_exec_error (engine : SparqlEngine)
    (c : SparqlConstraint) (focus : Term) (path : Option Path) (shape : Shape)
    (queryText : String) (maybeValue : Option Term) (prepared err : String)
    (hparse : engine.parseQuery c.prefixes
      (injectValuesBindings queryText
        (c.sparqlBindings focus path shape maybeValue)) = Except.ok prepared)
    (hexec : engine.execute prepared = Except.error err) :
    sparqlIterateOnce engine c focus path shape queryText maybeValue =
      [shape.buildValidationResult
        { focusNode := focus
          constraintComponent := some c.constraintComponent
          constraintMessages := ["SPARQL execution error: " ++ err]
          constraintDetail := some ("SPARQL query: " ++
            flattenNewlines (injectValuesBindings queryText
              (c.sparqlBindings focus path shape maybeValue)))
          value := maybeValue }] := by
  cases hex : c.executable <;>
    simp [sparqlIterateOnce, hparse, hexec, hex]

/-- C5: `SparqlConstraint::validate` never returns an error; a query
whose algebra contains `MINUS`, `SERVICE`, or a nested `SELECT` is
rejected with one violation explaining the limitation; and — for every
target of every invocation — a SPARQL parse failure or execution failure
is emitted as a violation carrying diagnostic text in the `Ok` result
instead of being raised. -/
theorem sparql_validate_never_errors (engine : SparqlEngine)
    (c : SparqlConstraint) (focus : Term) (path : Option Path)
    (valueNodes : List Term) (shape : Shape) :
    (SparqlConstraint.validate engine c focus path valueNodes shape).isOk = true ∧
      (∀ l r k, unsupportedInPattern (GraphPattern.minus l r) k =
        some "MINUS is not supported for SHACL pre-binding") ∧
      (∀ p k, unsupportedInPattern (GraphPattern.service p) k =
        some "SERVICE is not supported for SHACL pre-binding") ∧
      (∀ p, unsupportedInPattern (GraphPattern.project p) 0 =
        some "Nested SELECT is not supported for SHACL pre-binding") ∧
      (∀ reason,
        unsupportedPrebindingConstruct engine c.executable.query c.prefixes =
          some reason →
        ∃ v, SparqlConstraint.validate engine c focus path valueNodes shape =
            Except.ok [v] ∧
          v.sourceConstraintComponent = some c.constraintComponent ∧
          v.constraintDetail =
            some (reason ++ ": " ++ flattenNewlines c.executable.query)) ∧
      (∀ maybeValue ∈ c.runOnceTargets path focus valueNodes, ∀ err : String,
        unsupportedPrebindingConstruct engine c.executable.query c.prefixes =
          none →
        engine.parseQuery c.prefixes
            (injectValuesBindings c.executable.query
              (c.sparqlBindings focus path shape maybeValue)) =
          Except.error err →
        ∃ vs v, SparqlConstraint.validate engine c focus path valueNodes shape =
            Except.ok vs ∧ v ∈ vs ∧
          v.messages.head? = some ("SPARQL parse error: " ++ err) ∧
          v.sourceConstraintComponent = some c.constraintComponent ∧
          v.constraintDetail = some ("SPARQL query: " ++
            flattenNewlines (injectValuesBindings c.executable.query
              (c.sparqlBindings focus path shape maybeValue))) ∧
          v.value = maybeValue) ∧
      (∀ maybeValue ∈ c.runOnceTargets path focus valueNodes,
        ∀ prepared err : String,
        unsupportedPrebindingConstruct engine c.executable.query c.prefixes =
          none →
        engine.parseQuery c.prefixes
            (injectValuesBindings c.executable.query
              (c.sparqlBindings focus path shape maybeValue)) =
          Except.ok prepared →
        engine.execute prepared = Except.error err →
        ∃ vs v, SparqlConstraint.validate engine c focus path valueNodes shape =
            Except.ok vs ∧ v ∈ vs ∧
          v.messages.head? = some ("SPARQL execution error: " ++ err) ∧
          v.sourceConstraintComponent = some c.constraintComponent ∧
          v.constraintDetail = some ("SPARQL query: " ++
            flattenNewlines (injectValuesBindings c.executable.query
              (c.sparqlBindings focus path shape maybeValue))) ∧
          v.value = maybeValue) := by
  refine ⟨?_, fun l r k => rfl, fun p k => rfl, fun p => rfl, ?_, ?_, ?_⟩
  · cases h : unsupportedPrebindingConstruct engine c.executable.query c.prefixes with
    | some reason => simp [SparqlConstraint.validate, h, Except.isOk, Except.toBool]
    | none => simp [SparqlConstraint.validate, h, Except.isOk, Except.toBool]
  · intro reason hreason
    refine ⟨shape.buildValidationResult
      { focusNode := focus
        constraintComponent := some c.constraintComponent
        constraintDetail :=
          some (reason ++ ": " ++ flattenNewlines c.executable.query)
        constraintMessages :=
          if c.messages.isEmpty then ["SPARQL pre-binding violation"]
          else c.messages
        value := valueNodes.head? }, ?_, rfl, rfl⟩
    simp only [SparqlConstraint.validate, hreason]
  · intro maybeValue hmem err hunsup hparse
    have hiter := sparqlIterateOnce_parse_error engine c focus path shape
      c.executable.query maybeValue err hparse
    refine ⟨(c.runOnceTargets path focus valueNodes).flatMap
        (sparqlIterateOnce engine c focus path shape c.executable.query),
      shape.buildValidationResult
        { focusNode := focus
          constraintMessages := ["SPARQL parse error: " ++ err]
          constraintComponent := some c.constraintComponent
          constraintDetail := some ("SPARQL query: " ++
            flattenNewlines (injectValuesBindings c.executable.query
              (c.sparqlBindings focus path shape maybeValue)))
          value := maybeValue },
      sparqlValidate_eq_flatMap engine c focus path valueNodes shape hunsup,
      List.mem_flatMap.mpr ⟨maybeValue, hmem, by
        rw [hiter]; exact List.mem_singleton_self _⟩,
      ?_, rfl, rfl, rfl⟩
    simp [Shape.buildValidationResult, retainFirstOccurrences_cons_head]
  · intro maybeValue hmem prepared err hunsup hparse hexec
    have hiter := sparqlIterateOnce_exec_error engine c focus path shape
      c.executable.query maybeValue prepared err hparse hexec
    refine ⟨(c.runOnceTargets path focus valueNodes).flatMap
        (sparqlIterateOnce engine c focus path shape c.executable.query),
      shape.buildValidationResult
        { focusNode := focus
          constraintComponent := some c.constraintComponent
          constraintMessages := ["SPARQL execution error: " ++ err]
          constraintDetail := some ("SPARQL query: " ++
            flattenNewlines (injectValuesBindings c.executable.query
              (c.sparqlBindings focus path shape maybeValue)))
          value := maybeValue },
      sparqlValidate_eq_flatMap engine c focus path valueNodes shape hunsup,
      List.mem_flatMap.mpr ⟨maybeValue, hmem, by
        rw [hiter]; exact List.mem_singleton_self _⟩,
      ?_, rfl, rfl, rfl⟩
    simp [Shape.buildValidationResult, retainFirstOccurrences_cons_head]

/-- An engine whose algebra parse yields a SELECT over `MINUS`. -/
def minusEngine : SparqlEngine :=
  { parseAlgebra := fun _ _ => some (.select (.minus .bgp .bgp))
    parseQuery := fun _ q => .ok q
    execute := fun _ => .ok .other }

/-- An engine on which every prepared-query parse fails. -/
def failingEngine : SparqlEngine :=
  { parseAlgebra := fun _ _ => none
    parseQuery := fun _ _ => .error "boom"
    execute := fun _ => .error "unused" }

/-- An engine that parses every query and fails every execution. -/
def execFailEngine : SparqlEngine :=
  { parseAlgebra := fun _ _ => none
    parseQuery := fun _ q => .ok q
    execute := fun _ => .error "exec boom" }

/-- A concrete ASK constraint with no messages, prefixes, parameters, or
source component. -/
def c5Constraint : SparqlConstraint :=
  { executable := .ask "ASK \x7b ?s ?p ?o \x7d"
    messages := []
    prefixes := []
    parameterBindings := []
    sourceConstraintComponent := none }

/-- Witness for C5 at concrete engines: a query parsed to a `MINUS`
pattern is rejected with a single explaining violation, a parse failure
becomes a violation with the diagnostic message, and an execution failure
becomes a violation with the diagnostic message — all returned through
`Ok`. -/
theorem sparql_validate_never_errors_witness :
    (∃ v, SparqlConstraint.validate minusEngine c5Constraint
          (.namedNode "urn:f") none [] defaultWitnessShape = Except.ok [v] ∧
        v.sourceConstraintComponent = some c5Constraint.constraintComponent ∧
        v.constraintDetail = some ("MINUS is not supported for SHACL pre-binding" ++
          ": " ++ flattenNewlines c5Constraint.executable.query)) ∧
      (∃ vs v, SparqlConstraint.validate failingEngine c5Constraint
          (.namedNode "urn:f") none [] defaultWitnessShape = Except.ok vs ∧
        v ∈ vs ∧
        v.messages.head? = some ("SPARQL parse error: " ++ "boom")) ∧
      ∃ vs v, SparqlConstraint.validate execFailEngine c5Constraint
          (.namedNode "urn:f") none [] defaultWitnessShape = Except.ok vs ∧
        v ∈ vs ∧
        v.messages.head? = some ("SPARQL execution error: " ++ "exec boom") := by
  refine ⟨?_, ?_, ?_⟩
  · exact (sparql_validate_never_errors minusEngine c5Constraint
      (.namedNode "urn:f") none [] defaultWitnessShape).2.2.2.2.1
      "MINUS is not supported for SHACL pre-binding" rfl
  · obtain ⟨vs, v, h1, h2, h3, _, _, _⟩ :=
      (sparql_validate_never_errors failingEngine c5Constraint
        (.namedNode "urn:f") none [] defaultWitnessShape).2.2.2.2.2.1
        none (by decide) "boom" rfl rfl
    exact ⟨vs, v, h1, h2, h3⟩
  · obtain ⟨vs, v, h1, h2, h3, _, _, _⟩ :=
      (sparql_validate_never_errors execFailEngine c5Constraint
        (.namedNode "urn:f") none [] defaultWitnessShape).2.2.2.2.2.2
        none (by decide)
        (injectValuesBindings c5Constraint.executable.query
          (c5Constraint.sparqlBindings (.namedNode "urn:f") none
            defaultWitnessShape none))
        "exec boom" rfl rfl rfl
    exact ⟨vs, v, h1, h2, h3⟩

end ShaclRust
